import Mathlib

/-!
# Verification of the RENDER3D overworld progression state machine

Shallow embedding of the node/path progression logic of the two source
variants of this repository:

* `src/1.py` — embedded with the source's own names
  (`setup_level_nodes_and_paths`, `set_current_player_node`,
  `handle_node_click`, `update_all_visuals`, `update_path_visuals`);
* `src/3dworld5.13.25.py` — embedded with a `_v2` suffix.

Rendering-only data (3D positions, node colors, tooltips, labels, meshes,
animation tweens) is not part of the state machine and is omitted; path
entities keep the visual fields the spec reasons about (color class,
thickness, visibility).  Python dictionaries keyed by node id are modelled
as lists in insertion order; lookups take the first matching entry, which
coincides with dictionary behaviour because node ids are unique (spec §6
requires unique ids; theorems that need uniqueness carry it as a
hypothesis).  Code paths that raise `KeyError` in `3dworld5.13.25.py`
(direct dictionary indexing) are modelled with `Option`, `none` standing
for the raised exception.
-/

namespace Render3D

/-- The three node states of the progression graph (`node_state` strings
`'locked'`, `'unlocked'`, `'completed'` in the source). -/
inductive NodeState where
  | locked
  | unlocked
  | completed
deriving DecidableEq, Repr

open NodeState

/-- Rank of a state along the progression chain
locked → unlocked → completed; used to state monotonicity. -/
def NodeState.rank : NodeState → Nat
  | locked => 0
  | unlocked => 1
  | completed => 2

/-- The state-machine content of a `LevelNode` object: its id, its
`unlocks` list, its mutable `node_state`, and the `is_current_game_node`
flag maintained by the visual sync. -/
structure LevelNode where
  level_id : String
  unlocks : List String
  node_state : NodeState
  is_current_game_node : Bool
deriving DecidableEq, Repr

/-- One entry of `levels_data`: the configuration fields consumed by the
state machine (id, unlocks, initial_state). -/
structure LevelConfig where
  id : String
  unlocks : List String
  initial_state : NodeState
deriving DecidableEq, Repr

/-- Color classes assigned to path entities by `update_path_visuals`;
`start` is the color a line entity has when created, before any sync. -/
inductive PathColor where
  | start
  | white
  | lightGray
  | gray
  | darkGray
  | black
deriving DecidableEq, Repr

/-- A path line entity: canonical key (sorted id pair) plus the mutable
visual fields the spec reasons about. -/
structure PathEntity where
  key : String × String
  path_color : PathColor
  thickness : Nat
  visible : Bool
deriving DecidableEq, Repr

/-- The module-level mutable state of the program: the node dictionary
(in insertion order), the path-entity dictionary (in insertion order),
and the current-node pointer (`None` modelled as `none`). -/
structure GameState where
  all_level_nodes : List LevelNode
  paths_entities : List PathEntity
  current_player_node_id : Option String
deriving DecidableEq, Repr

/-- Feedback emitted by a click: shake animation, the "entering level"
text, or the "moved to" text. -/
inductive ClickEffect where
  | shake
  | enterLevel
  | moved
deriving DecidableEq, Repr

/-- Dictionary lookup `all_level_nodes[i]` / `all_level_nodes.get(i)`:
first node whose id matches. -/
def lookupNode (ns : List LevelNode) (i : String) : Option LevelNode :=
  ns.find? (fun n => n.level_id == i)

/-- Python truthiness of the `current_player_node_id` variable:
`None` and the empty string are falsy. -/
def truthyId : Option String → Bool
  | none => false
  | some s => s ≠ ""

/-- `LevelNode.set_state`: overwrite the node state (the tooltip-text
side effect carries no game state and is omitted). -/
def LevelNode.set_state (n : LevelNode) (s : NodeState) : LevelNode :=
  { n with node_state := s }

/-- Apply `set_state` to the dictionary entry with the given id. -/
def setStateById (ns : List LevelNode) (i : String) (s : NodeState) : List LevelNode :=
  ns.map (fun n => if n.level_id = i then n.set_state s else n)

/-- Lexicographic code-point comparison of character lists: the string
order Python's `sorted` uses. -/
def charListLe : List Char → List Char → Bool
  | [], _ => true
  | _ :: _, [] => false
  | c1 :: t1, c2 :: t2 =>
      if c1 = c2 then charListLe t1 t2 else decide (c1 < c2)

/-- Canonical path key: `tuple(sorted((a, b)))`. -/
def path_key (a b : String) : String × String :=
  if charListLe a.data b.data = true then (a, b) else (b, a)

/-- Node-creation loop of `setup_level_nodes_and_paths`: one `LevelNode`
per config entry, in order, with `is_current_game_node = False`. -/
def create_nodes (cfg : List LevelConfig) : List LevelNode :=
  cfg.map (fun d =>
    { level_id := d.id, unlocks := d.unlocks, node_state := d.initial_state,
      is_current_game_node := false })

/-- Initial current pointer, `src/1.py` variant: the first config entry
with `initial_state == 'unlocked'` (guard `current_player_node_id is
None`). -/
def initial_current (cfg : List LevelConfig) : Option String :=
  cfg.foldl
    (fun c d => if d.initial_state = unlocked ∧ c = none then some d.id else c)
    none

/-- Initial current pointer, `3dworld5.13.25.py` variant: guard is
truthiness (`not current_player_node_id`) instead of an `is None` test. -/
def initial_current_v2 (cfg : List LevelConfig) : Option String :=
  cfg.foldl
    (fun c d => if d.initial_state = unlocked ∧ truthyId c = false then some d.id else c)
    none

/-- Path-creation loop (identical in both variants): for every node and
every `unlocks` target that exists in the node dictionary, add one path
entity per canonical key.  Freshly created line entities are visible with
thickness 5. -/
def create_paths (nodes : List LevelNode) : List PathEntity :=
  nodes.foldl
    (fun acc node =>
      node.unlocks.foldl
        (fun acc2 tid =>
          if nodes.any (fun m => m.level_id = tid) then
            let k := path_key node.level_id tid
            if acc2.any (fun p => p.key = k) then acc2
            else acc2 ++ [{ key := k, path_color := PathColor.start,
                            thickness := 5, visible := true }]
          else acc2)
        acc)
    []

/-- Fallback of `src/1.py`: if no node was configured unlocked
(`current_player_node_id is None`) and the config is nonempty, point at
the first config entry and, when that id is truthy and present, force it
unlocked. -/
def setup_fallback (cfg : List LevelConfig) (nodes : List LevelNode)
    (cur : Option String) : List LevelNode × Option String :=
  match cfg with
  | d :: _ =>
      match cur with
      | none =>
          if d.id ≠ "" ∧ nodes.any (fun n => n.level_id = d.id) then
            (setStateById nodes d.id unlocked, some d.id)
          else (nodes, some d.id)
      | some c => (nodes, some c)
  | [] => (nodes, cur)

/-- Fallback of `3dworld5.13.25.py`: triggered whenever the pointer is
falsy; indexes the dictionary directly (`none` models the `KeyError`). -/
def setup_fallback_v2 (cfg : List LevelConfig) (nodes : List LevelNode)
    (cur : Option String) : Option (List LevelNode × Option String) :=
  match cfg with
  | d :: _ =>
      if truthyId cur = false then
        if nodes.any (fun n => n.level_id = d.id) then
          some (setStateById nodes d.id unlocked, some d.id)
        else none
      else some (nodes, cur)
  | [] => some (nodes, cur)

/-- Per-node part of `update_all_visuals`: recompute each node's
`is_current_game_node` flag from the pointer (the color, scale and
collider directives derived alongside it are render-only). -/
def update_node_visuals (ns : List LevelNode) (cur : Option String) : List LevelNode :=
  ns.map (fun n => { n with is_current_game_node := decide (cur = some n.level_id) })

/-- Branch logic of `update_path_visuals` in `src/1.py` for one path
entity whose two endpoints resolved to `node1` and `node2`. -/
def update_one_path_nodes (p : PathEntity) (node1 node2 : LevelNode) : PathEntity :=
  if node1.node_state ≠ locked ∧ node2.node_state ≠ locked then
    if node1.is_current_game_node = true ∨ node2.is_current_game_node = true then
      { p with path_color := PathColor.white, thickness := 8, visible := true }
    else if node1.node_state = unlocked ∧ node2.node_state = unlocked then
      { p with path_color := PathColor.lightGray, thickness := 5, visible := true }
    else if (node1.node_state = completed ∧ node2.node_state = unlocked) ∨
            (node1.node_state = unlocked ∧ node2.node_state = completed) ∨
            (node1.node_state = completed ∧ node2.node_state = completed) then
      { p with path_color := PathColor.gray, thickness := 5, visible := true }
    else
      { p with path_color := PathColor.darkGray, thickness := 3, visible := true }
  else
    { p with
      path_color := PathColor.black
      thickness := 3
      visible := decide (((node1.node_state = unlocked ∨ node1.node_state = completed ∨
                           node1.is_current_game_node = true) ∨
                          (node2.node_state = unlocked ∨ node2.node_state = completed ∨
                           node2.is_current_game_node = true)) ∧
                         ¬(node1.node_state = locked ∧ node2.node_state = locked)) }

/-- Per-path body of `update_path_visuals` in `src/1.py`; paths whose
endpoints fail to resolve are skipped (`continue`). -/
def update_one_path (ns : List LevelNode) (p : PathEntity) : PathEntity :=
  match lookupNode ns p.key.1, lookupNode ns p.key.2 with
  | some node1, some node2 => update_one_path_nodes p node1 node2
  | _, _ => p

/-- `update_path_visuals` of `src/1.py`. -/
def update_path_visuals (ns : List LevelNode) (ps : List PathEntity) : List PathEntity :=
  ps.map (update_one_path ns)

/-- Branch logic of `update_path_visuals` in `3dworld5.13.25.py` for
one path entity whose two endpoints resolved to `node1` and `node2`. -/
def update_one_path_nodes_v2 (p : PathEntity) (node1 node2 : LevelNode) : PathEntity :=
  if node1.node_state ≠ locked ∧ node2.node_state ≠ locked then
    if node1.is_current_game_node = true ∨ node2.is_current_game_node = true then
      { p with path_color := PathColor.white, thickness := 8, visible := true }
    else if node1.node_state = unlocked ∧ node2.node_state = unlocked then
      { p with path_color := PathColor.lightGray, thickness := 5, visible := true }
    else
      { p with path_color := PathColor.gray, thickness := 5, visible := true }
  else
    { p with
      path_color := PathColor.black
      thickness := 3
      visible := decide ((node1.node_state = unlocked ∨ node1.node_state = completed) ∨
                         (node2.node_state = unlocked ∨ node2.node_state = completed)) }

/-- Per-path body of `update_path_visuals` in `3dworld5.13.25.py`; this
variant indexes the node dictionary directly, so a missing endpoint is a
`KeyError` (`none`). -/
def update_one_path_v2 (ns : List LevelNode) (p : PathEntity) : Option PathEntity :=
  match lookupNode ns p.key.1, lookupNode ns p.key.2 with
  | some node1, some node2 => some (update_one_path_nodes_v2 p node1 node2)
  | _, _ => none

/-- `update_path_visuals` of `3dworld5.13.25.py`: the loop over all path
entities, propagating a `KeyError`. -/
def update_path_visuals_v2 (ns : List LevelNode) : List PathEntity → Option (List PathEntity)
  | [] => some []
  | p :: rest =>
      match update_one_path_v2 ns p with
      | some p2 => (update_path_visuals_v2 ns rest).map (fun r => p2 :: r)
      | none => none

/-- `update_all_visuals` of `src/1.py`: refresh every node's current
flag, then refresh every path's visual state. -/
def update_all_visuals (g : GameState) : GameState :=
  let ns := update_node_visuals g.all_level_nodes g.current_player_node_id
  { all_level_nodes := ns,
    paths_entities := update_path_visuals ns g.paths_entities,
    current_player_node_id := g.current_player_node_id }

/-- `update_all_visuals` of `3dworld5.13.25.py`. -/
def update_all_visuals_v2 (g : GameState) : Option GameState :=
  (update_path_visuals_v2 (update_node_visuals g.all_level_nodes g.current_player_node_id)
      g.paths_entities).map
    (fun ps =>
      { all_level_nodes := update_node_visuals g.all_level_nodes g.current_player_node_id,
        paths_entities := ps,
        current_player_node_id := g.current_player_node_id })

/-- Body of the vacated-node completion: look the previous current node
up and complete it when it was unlocked. -/
def complete_prev_node (ns : List LevelNode) (cid : String) : List LevelNode :=
  match lookupNode ns cid with
  | some prev_node =>
      if prev_node.node_state = unlocked then setStateById ns cid completed else ns
  | none => ns

/-- First half of `set_current_player_node` in `src/1.py`: if the
pointer is truthy and resolves, complete the vacated node when it was
unlocked. -/
def complete_prev (ns : List LevelNode) (cur : Option String) : List LevelNode :=
  match cur with
  | some cid => if cid ≠ "" then complete_prev_node ns cid else ns
  | none => ns

/-- First half of `set_current_player_node` in `3dworld5.13.25.py`:
truthy pointer is indexed directly (`none` models the `KeyError`). -/
def complete_prev_v2 (ns : List LevelNode) (cur : Option String) :
    Option (List LevelNode) :=
  match cur with
  | some cid =>
      if cid ≠ "" then
        (lookupNode ns cid).map
          (fun prev_node =>
            if prev_node.node_state = unlocked then setStateById ns cid completed else ns)
      else some ns
  | none => some ns

/-- Body of the unlock cascade for one listed id: unlock it when it
exists and is still locked. -/
def unlock_step (ns : List LevelNode) (uid : String) : List LevelNode :=
  match lookupNode ns uid with
  | some n => if n.node_state = locked then setStateById ns uid unlocked else ns
  | none => ns

/-- Unlock cascade (identical in both variants): walk the new current
node's `unlocks` list and unlock every listed node that exists and is
still locked. -/
def unlock_cascade (ns : List LevelNode) : List String → List LevelNode
  | [] => ns
  | uid :: rest => unlock_cascade (unlock_step ns uid) rest

/-- `set_current_player_node` of `src/1.py`: complete the vacated node,
retarget the pointer, defensively unlock the destination if it was
locked, run the unlock cascade, and resync all visuals. -/
def set_current_player_node (g : GameState) (target_node_id : String) : GameState :=
  let ns1 := complete_prev g.all_level_nodes g.current_player_node_id
  let ns2 :=
    match lookupNode ns1 target_node_id with
    | some current_node =>
        let ns := if current_node.node_state = locked
                  then setStateById ns1 target_node_id unlocked else ns1
        unlock_cascade ns current_node.unlocks
    | none => ns1
  update_all_visuals
    { all_level_nodes := ns2, paths_entities := g.paths_entities,
      current_player_node_id := some target_node_id }

/-- `set_current_player_node` of `3dworld5.13.25.py`: same steps, but
the vacated node and destination are indexed directly. -/
def set_current_player_node_v2 (g : GameState) (target_node_id : String) :
    Option GameState :=
  (complete_prev_v2 g.all_level_nodes g.current_player_node_id).bind fun ns1 =>
  (lookupNode ns1 target_node_id).bind fun current_node =>
  update_all_visuals_v2
    { all_level_nodes :=
        unlock_cascade
          (if current_node.node_state = locked
           then setStateById ns1 target_node_id unlocked else ns1)
          current_node.unlocks,
      paths_entities := g.paths_entities,
      current_player_node_id := some target_node_id }

/-- The `can_move` computation of `handle_node_click` in `src/1.py`:
when the pointer is truthy and resolves, a click is movable either when
the clicked node is listed in the current node's `unlocks` and unlocked,
or (looser fallback) when it is unlocked or completed at all. -/
def compute_can_move (g : GameState) (clicked_node : LevelNode) : Bool :=
  match g.current_player_node_id with
  | some cid =>
      if cid ≠ "" then
        match lookupNode g.all_level_nodes cid with
        | some player_node =>
            if clicked_node.level_id ∈ player_node.unlocks ∧
               clicked_node.node_state = unlocked then true
            else if clicked_node.node_state = unlocked ∨
                    clicked_node.node_state = completed then true
            else false
        | none => false
      else false
  | none => false

/-- `handle_node_click` of `src/1.py`.  The clicked node is identified
by id (in the source it is the node object itself, which lives in the
dictionary); a click naming an id with no node is a model artifact and
returns the state unchanged with no effect. -/
def handle_node_click (g : GameState) (clicked : String) :
    GameState × Option ClickEffect :=
  match lookupNode g.all_level_nodes clicked with
  | none => (g, none)
  | some clicked_node =>
      if clicked_node.node_state = locked then (g, some ClickEffect.shake)
      else if g.current_player_node_id = some clicked_node.level_id then
        (g, some ClickEffect.enterLevel)
      else if compute_can_move g clicked_node = false ∧
              clicked_node.node_state ≠ unlocked ∧
              clicked_node.node_state ≠ completed then
        (g, some ClickEffect.shake)
      else (set_current_player_node g clicked, some ClickEffect.moved)

/-- `get_adjacent_nodes` of `3dworld5.13.25.py`: neighbours of the given
id under the canonical path keys (comparing a key id against `None` is
`False`, so a `none` pointer has no neighbours). -/
def get_adjacent_nodes (ps : List PathEntity) (node_id : Option String) : List String :=
  ps.foldl
    (fun adj p =>
      if node_id = some p.key.1 then adj ++ [p.key.2]
      else if node_id = some p.key.2 then adj ++ [p.key.1]
      else adj)
    []

/-- `handle_node_click` of `3dworld5.13.25.py`: movement is allowed only
to a path-adjacent unlocked/completed node. -/
def handle_node_click_v2 (g : GameState) (clicked : String) :
    Option (GameState × ClickEffect) :=
  (lookupNode g.all_level_nodes clicked).bind fun clicked_node =>
  if clicked_node.node_state = locked then some (g, ClickEffect.shake)
  else if g.current_player_node_id = some clicked_node.level_id then
    some (g, ClickEffect.enterLevel)
  else
    let adjacent := get_adjacent_nodes g.paths_entities g.current_player_node_id
    if clicked_node.level_id ∈ adjacent ∧
       (clicked_node.node_state = unlocked ∨ clicked_node.node_state = completed) then
      (set_current_player_node_v2 g clicked).map (fun g2 => (g2, ClickEffect.moved))
    else some (g, ClickEffect.shake)

/-- `setup_level_nodes_and_paths` of `src/1.py`. -/
def setup_level_nodes_and_paths (cfg : List LevelConfig) : GameState :=
  update_all_visuals
    { all_level_nodes := (setup_fallback cfg (create_nodes cfg) (initial_current cfg)).1,
      paths_entities := create_paths (create_nodes cfg),
      current_player_node_id :=
        (setup_fallback cfg (create_nodes cfg) (initial_current cfg)).2 }

/-- `setup_level_nodes_and_paths` of `3dworld5.13.25.py`. -/
def setup_level_nodes_and_paths_v2 (cfg : List LevelConfig) : Option GameState :=
  (setup_fallback_v2 cfg (create_nodes cfg) (initial_current_v2 cfg)).bind fun fb =>
    update_all_visuals_v2
      { all_level_nodes := fb.1,
        paths_entities := create_paths (create_nodes cfg),
        current_player_node_id := fb.2 }

/-- The shipped `levels_data` configuration (state-machine fields). -/
def levels_data : List LevelConfig :=
  [ { id := "1-1", unlocks := ["1-2"], initial_state := unlocked },
    { id := "1-2", unlocks := ["1-A", "1-3"], initial_state := locked },
    { id := "1-A", unlocks := [], initial_state := locked },
    { id := "1-3", unlocks := ["1-Castle"], initial_state := locked },
    { id := "1-Castle", unlocks := ["2-1"], initial_state := locked },
    { id := "2-1", unlocks := [], initial_state := locked } ]

/-- State of the node with a given id, seen through the dictionary. -/
def stateIn (ns : List LevelNode) (i : String) : Option NodeState :=
  (lookupNode ns i).map (fun n => n.node_state)

/-- State of a node of the game state. -/
def stateOf (g : GameState) (i : String) : Option NodeState :=
  stateIn g.all_level_nodes i

/-- Id list of the node dictionary, in insertion order. -/
def idsOf (ns : List LevelNode) : List String :=
  ns.map (fun n => n.level_id)

/-- Comparison of optional states along the progression order; `none` on
the left is vacuously below everything. -/
def optRankLe : Option NodeState → Option NodeState → Bool
  | some s, some t => s.rank ≤ t.rank
  | some _, none => false
  | none, _ => true

/-- Pointwise state evolution between two node dictionaries: every id
resolves to a state of at least its previous rank. -/
def MonoStep (ns ns2 : List LevelNode) : Prop :=
  ∀ i, optRankLe (stateIn ns i) (stateIn ns2 i) = true

/-- The visual flags agree with the current pointer. -/
def currentFlagsOK (ns : List LevelNode) (cur : Option String) : Prop :=
  ∀ n ∈ ns, n.is_current_game_node = decide (cur = some n.level_id)

/-- Controller invariant backing the single-current-node property: the
id list matches the configuration, the pointer names an existing node,
and every flag agrees with the pointer. -/
def InvC1 (cfg : List LevelConfig) (g : GameState) : Prop :=
  idsOf g.all_level_nodes = cfg.map (fun d => d.id) ∧
    (∃ c, g.current_player_node_id = some c ∧ c ∈ idsOf g.all_level_nodes) ∧
    currentFlagsOK g.all_level_nodes g.current_player_node_id

/-- Three-node chain used by the spec's click scenario:
`A(unlocked) -> B(locked) -> C(locked)` with `B ∈ A.unlocks`. -/
def cfgABC : List LevelConfig :=
  [ { id := "A", unlocks := ["B"], initial_state := unlocked },
    { id := "B", unlocks := ["C"], initial_state := locked },
    { id := "C", unlocks := [], initial_state := locked } ]

/-- Two isolated unlocked nodes: `B` is unlocked, not current, and not
joined by any path to the current node `A`. -/
def cfgAB : List LevelConfig :=
  [ { id := "A", unlocks := [], initial_state := unlocked },
    { id := "B", unlocks := [], initial_state := unlocked } ]

/-- States reachable in the `src/1.py` variant: the initialized graph,
closed under clicks. -/
inductive Reachable (cfg : List LevelConfig) : GameState → Prop
  | init : Reachable cfg (setup_level_nodes_and_paths cfg)
  | click (g : GameState) (c : String) : Reachable cfg g →
      Reachable cfg (handle_node_click g c).1

/-- States reachable in the `3dworld5.13.25.py` variant. -/
inductive Reachable_v2 (cfg : List LevelConfig) : GameState → Prop
  | init (g : GameState) : setup_level_nodes_and_paths_v2 cfg = some g →
      Reachable_v2 cfg g
  | click (g g2 : GameState) (c : String) (e : ClickEffect) : Reachable_v2 cfg g →
      handle_node_click_v2 g c = some (g2, e) → Reachable_v2 cfg g2

/-! ## Basic lemmas about lookups, ids and state updates -/

theorem lookupNode_map (f : LevelNode → LevelNode)
    (hf : ∀ n, (f n).level_id = n.level_id) (ns : List LevelNode) (i : String) :
    lookupNode (ns.map f) i = (lookupNode ns i).map f := by
  induction ns with
  | nil => rfl
  | cons a l ih =>
      unfold lookupNode at *
      by_cases h : a.level_id = i
      · rw [List.map_cons, List.find?_cons_of_pos _ (by simp [hf, h]),
          List.find?_cons_of_pos _ (by simp [h])]
        rfl
      · rw [List.map_cons, List.find?_cons_of_neg _ (by simp [hf, h]),
          List.find?_cons_of_neg _ (by simp [h])]
        exact ih

theorem lookupNode_eq_some {ns : List LevelNode} {i : String} {n : LevelNode}
    (h : lookupNode ns i = some n) : n.level_id = i ∧ n ∈ ns := by
  unfold lookupNode at h
  have h1 := List.find?_some h
  have h2 := List.mem_of_find?_eq_some h
  simp only [beq_iff_eq] at h1
  exact ⟨h1, h2⟩

theorem lookupNode_isSome {ns : List LevelNode} {i : String} (h : i ∈ idsOf ns) :
    (lookupNode ns i).isSome = true := by
  unfold idsOf at h
  obtain ⟨n, hn, hid⟩ := List.mem_map.mp h
  unfold lookupNode
  rw [List.find?_isSome]
  exact ⟨n, hn, by simp [hid]⟩

theorem stateIn_lookup {ns : List LevelNode} {i : String} {n : LevelNode}
    (h : lookupNode ns i = some n) : stateIn ns i = some n.node_state := by
  unfold stateIn
  rw [h]
  rfl

theorem set_state_level_id (n : LevelNode) (s : NodeState) :
    (n.set_state s).level_id = n.level_id := rfl

theorem lookupNode_setStateById (ns : List LevelNode) (j : String) (s : NodeState)
    (i : String) :
    lookupNode (setStateById ns j s) i =
      (lookupNode ns i).map (fun n => if n.level_id = j then n.set_state s else n) := by
  unfold setStateById
  exact lookupNode_map _ (fun n => by
    by_cases h : n.level_id = j <;> simp [h, LevelNode.set_state]) ns i

theorem stateIn_setStateById (ns : List LevelNode) (j : String) (s : NodeState)
    (i : String) :
    stateIn (setStateById ns j s) i =
      (stateIn ns i).map (fun t => if i = j then s else t) := by
  unfold stateIn
  rw [lookupNode_setStateById]
  cases h : lookupNode ns i with
  | none => rfl
  | some n =>
      have hid : n.level_id = i := (lookupNode_eq_some h).1
      by_cases hij : i = j
      · simp [hij ▸ hid, LevelNode.set_state, hij]
      · simp [hid, hij, LevelNode.set_state]

theorem stateIn_setStateById_ne {i j : String} (ns : List LevelNode) (s : NodeState)
    (h : i ≠ j) : stateIn (setStateById ns j s) i = stateIn ns i := by
  rw [stateIn_setStateById]
  cases stateIn ns i with
  | none => rfl
  | some t => simp [h]

theorem stateIn_setStateById_self {ns : List LevelNode} {j : String} {t : NodeState}
    (s : NodeState) (h : stateIn ns j = some t) :
    stateIn (setStateById ns j s) j = some s := by
  rw [stateIn_setStateById, h]
  simp

theorem idsOf_map (f : LevelNode → LevelNode)
    (hf : ∀ n, (f n).level_id = n.level_id) (ns : List LevelNode) :
    idsOf (ns.map f) = idsOf ns := by
  unfold idsOf
  induction ns with
  | nil => rfl
  | cons a l ih =>
      simp only [List.map_cons]
      rw [hf a, ih]

theorem idsOf_setStateById (ns : List LevelNode) (j : String) (s : NodeState) :
    idsOf (setStateById ns j s) = idsOf ns :=
  idsOf_map (fun n => if n.level_id = j then n.set_state s else n)
    (fun n => by by_cases h : n.level_id = j <;> simp [h, LevelNode.set_state]) ns

theorem idsOf_update_node_visuals (ns : List LevelNode) (cur : Option String) :
    idsOf (update_node_visuals ns cur) = idsOf ns :=
  idsOf_map (fun n => { n with is_current_game_node := decide (cur = some n.level_id) })
    (fun _ => rfl) ns

theorem lookupNode_update_node_visuals (ns : List LevelNode) (cur : Option String)
    (i : String) :
    lookupNode (update_node_visuals ns cur) i =
      (lookupNode ns i).map
        (fun n => { n with is_current_game_node := decide (cur = some n.level_id) }) := by
  unfold update_node_visuals
  exact lookupNode_map (fun n => { n with is_current_game_node := decide (cur = some n.level_id) }) (fun n => rfl) ns i

theorem stateIn_update_node_visuals (ns : List LevelNode) (cur : Option String)
    (i : String) : stateIn (update_node_visuals ns cur) i = stateIn ns i := by
  unfold stateIn update_node_visuals
  rw [lookupNode_map
    (fun n => { n with is_current_game_node := decide (cur = some n.level_id) })
    (fun n => rfl)]
  cases lookupNode ns i <;> rfl

theorem idsOf_create_nodes (cfg : List LevelConfig) :
    idsOf (create_nodes cfg) = cfg.map (fun d => d.id) := by
  unfold idsOf create_nodes
  induction cfg with
  | nil => rfl
  | cons d t ih =>
      simp only [List.map_cons]
      rw [ih]

/-! ## Lemmas about the vacated-node completion step -/

theorem complete_prev_some (ns : List LevelNode) (cid : String) :
    complete_prev ns (some cid) =
      if cid ≠ "" then complete_prev_node ns cid else ns := rfl

theorem unlock_cascade_cons (ns : List LevelNode) (a : String) (t : List String) :
    unlock_cascade ns (a :: t) = unlock_cascade (unlock_step ns a) t := rfl

theorem complete_prev_node_eq_some {ns : List LevelNode} {cid : String}
    {pn : LevelNode} (h : lookupNode ns cid = some pn) :
    complete_prev_node ns cid =
      if pn.node_state = unlocked then setStateById ns cid completed else ns := by
  unfold complete_prev_node
  rw [h]

theorem idsOf_complete_prev_node (ns : List LevelNode) (cid : String) :
    idsOf (complete_prev_node ns cid) = idsOf ns := by
  unfold complete_prev_node
  cases lookupNode ns cid with
  | none => rfl
  | some prev_node =>
      by_cases h : prev_node.node_state = unlocked
      · simp only [h, if_pos]
        exact idsOf_setStateById ns cid completed
      · simp only [h, if_neg, ite_false]

theorem idsOf_complete_prev (ns : List LevelNode) (cur : Option String) :
    idsOf (complete_prev ns cur) = idsOf ns := by
  cases cur with
  | none => rfl
  | some cid =>
      show idsOf (if cid ≠ "" then complete_prev_node ns cid else ns) = idsOf ns
      by_cases h : cid = ""
      · simp [h]
      · simp only [h, ne_eq, not_false_eq_true, if_pos]
        exact idsOf_complete_prev_node ns cid

theorem stateIn_complete_prev_node_ne {i cid : String} (ns : List LevelNode)
    (h : i ≠ cid) : stateIn (complete_prev_node ns cid) i = stateIn ns i := by
  unfold complete_prev_node
  cases lookupNode ns cid with
  | none => rfl
  | some prev_node =>
      by_cases hu : prev_node.node_state = unlocked
      · simp only [hu, if_pos]
        exact stateIn_setStateById_ne ns completed h
      · simp only [hu, ite_false]

theorem stateIn_complete_prev_ne {cur : Option String} {i : String}
    (ns : List LevelNode) (h : cur ≠ some i) :
    stateIn (complete_prev ns cur) i = stateIn ns i := by
  cases cur with
  | none => rfl
  | some cid =>
      have hci : i ≠ cid := fun he => h (by rw [he])
      show stateIn (if cid ≠ "" then complete_prev_node ns cid else ns) i = stateIn ns i
      by_cases hc : cid = ""
      · simp [hc]
      · simp only [hc, ne_eq, not_false_eq_true, if_pos]
        exact stateIn_complete_prev_node_ne ns hci

theorem stateIn_complete_prev_cases (ns : List LevelNode) (cur : Option String)
    (i : String) :
    stateIn (complete_prev ns cur) i = stateIn ns i ∨
      (stateIn ns i = some unlocked ∧
       stateIn (complete_prev ns cur) i = some completed) := by
  by_cases hc : cur = some i
  · subst hc
    rw [complete_prev_some]
    by_cases hi : i = ""
    · simp [hi]
    · simp only [hi, ne_eq, not_false_eq_true, if_pos]
      unfold complete_prev_node
      cases hl : lookupNode ns i with
      | none => left; rfl
      | some prev_node =>
          by_cases hu : prev_node.node_state = unlocked
          · simp only [hu, if_pos]
            right
            have hst : stateIn ns i = some unlocked := by
              rw [stateIn_lookup hl, hu]
            exact ⟨hst, stateIn_setStateById_self completed hst⟩
          · simp [hu]
  · left; exact stateIn_complete_prev_ne ns hc

theorem stateIn_complete_prev_locked {ns : List LevelNode} {i : String}
    (cur : Option String) (h : stateIn ns i = some locked) :
    stateIn (complete_prev ns cur) i = some locked := by
  rcases stateIn_complete_prev_cases ns cur i with hc | ⟨h1, _⟩
  · rw [hc, h]
  · rw [h] at h1
    exact absurd (Option.some.inj h1) (by simp)

theorem lookupNode_complete_prev_node {ns : List LevelNode} {X : String}
    {xn : LevelNode} (cid : String) (hx : lookupNode ns X = some xn) :
    ∃ m, lookupNode (complete_prev_node ns cid) X = some m ∧
      m.level_id = xn.level_id ∧ m.unlocks = xn.unlocks := by
  unfold complete_prev_node
  cases lookupNode ns cid with
  | none => exact ⟨xn, hx, rfl, rfl⟩
  | some prev_node =>
      by_cases hu : prev_node.node_state = unlocked
      · simp only [hu, if_pos]
        rw [lookupNode_setStateById, hx]
        by_cases h : xn.level_id = cid
        · exact ⟨xn.set_state completed, by simp [h], rfl, rfl⟩
        · exact ⟨xn, by simp [h], rfl, rfl⟩
      · simp only [hu, ite_false]
        exact ⟨xn, hx, rfl, rfl⟩

theorem lookupNode_complete_prev {ns : List LevelNode} {X : String} {xn : LevelNode}
    (cur : Option String) (hx : lookupNode ns X = some xn) :
    ∃ m, lookupNode (complete_prev ns cur) X = some m ∧
      m.level_id = xn.level_id ∧ m.unlocks = xn.unlocks := by
  cases cur with
  | none => exact ⟨xn, hx, rfl, rfl⟩
  | some cid =>
      show ∃ m, lookupNode (if cid ≠ "" then complete_prev_node ns cid else ns) X = some m ∧ _
      by_cases hc : cid = ""
      · simp only [hc, ne_eq, not_true_eq_false, ite_false]
        exact ⟨xn, hx, rfl, rfl⟩
      · simp only [hc, ne_eq, not_false_eq_true, if_pos]
        exact lookupNode_complete_prev_node cid hx

/-! ## Lemmas about the unlock cascade -/

theorem idsOf_unlock_step (ns : List LevelNode) (uid : String) :
    idsOf (unlock_step ns uid) = idsOf ns := by
  unfold unlock_step
  cases lookupNode ns uid with
  | none => rfl
  | some n =>
      by_cases h : n.node_state = locked
      · simp only [h, if_pos]
        exact idsOf_setStateById ns uid unlocked
      · simp only [h, ite_false]

theorem stateIn_unlock_step_ne {i uid : String} (ns : List LevelNode)
    (h : i ≠ uid) : stateIn (unlock_step ns uid) i = stateIn ns i := by
  unfold unlock_step
  cases lookupNode ns uid with
  | none => rfl
  | some n =>
      by_cases hs : n.node_state = locked
      · simp only [hs, if_pos]
        exact stateIn_setStateById_ne ns unlocked h
      · simp only [hs, ite_false]

theorem stateIn_unlock_step_cases (ns : List LevelNode) (uid i : String) :
    stateIn (unlock_step ns uid) i = stateIn ns i ∨
      (stateIn ns i = some locked ∧
       stateIn (unlock_step ns uid) i = some unlocked) := by
  by_cases hiu : i = uid
  · subst hiu
    unfold unlock_step
    cases hl : lookupNode ns i with
    | none => left; rfl
    | some n =>
        by_cases hs : n.node_state = locked
        · simp only [hs, if_pos]
          right
          have hst : stateIn ns i = some locked := by rw [stateIn_lookup hl, hs]
          exact ⟨hst, stateIn_setStateById_self unlocked hst⟩
        · simp [hs]
  · left; exact stateIn_unlock_step_ne ns hiu

theorem stateIn_unlock_step_locked {ns : List LevelNode} {uid : String}
    (h : stateIn ns uid = some locked) :
    stateIn (unlock_step ns uid) uid = some unlocked := by
  obtain ⟨n, hn, hns⟩ : ∃ n, lookupNode ns uid = some n ∧ n.node_state = locked := by
    unfold stateIn at h
    cases hl : lookupNode ns uid with
    | none => rw [hl] at h; cases h
    | some n => rw [hl] at h; exact ⟨n, rfl, Option.some.inj h⟩
  unfold unlock_step
  rw [hn]
  simp only [hns, if_pos]
  exact stateIn_setStateById_self unlocked h

theorem idsOf_unlock_cascade (ns : List LevelNode) (l : List String) :
    idsOf (unlock_cascade ns l) = idsOf ns := by
  induction l generalizing ns with
  | nil => rfl
  | cons a t ih =>
      show idsOf (unlock_cascade (unlock_step ns a) t) = idsOf ns
      rw [ih (unlock_step ns a), idsOf_unlock_step]

theorem stateIn_unlock_cascade_not_mem {i : String} {l : List String}
    (ns : List LevelNode) (h : i ∉ l) :
    stateIn (unlock_cascade ns l) i = stateIn ns i := by
  induction l generalizing ns with
  | nil => rfl
  | cons a t ih =>
      have hia : i ≠ a := fun he => h (he ▸ List.mem_cons_self a t)
      have hit : i ∉ t := fun ht => h (List.mem_cons_of_mem a ht)
      show stateIn (unlock_cascade (unlock_step ns a) t) i = stateIn ns i
      rw [ih (unlock_step ns a) hit, stateIn_unlock_step_ne ns hia]

theorem stateIn_unlock_cascade_cases (ns : List LevelNode) (l : List String)
    (i : String) :
    stateIn (unlock_cascade ns l) i = stateIn ns i ∨
      (stateIn ns i = some locked ∧
       stateIn (unlock_cascade ns l) i = some unlocked) := by
  induction l generalizing ns with
  | nil => left; rfl
  | cons a t ih =>
      rw [unlock_cascade_cons]
      rcases stateIn_unlock_step_cases ns a i with hstep | ⟨hs1, hs2⟩
      · rcases ih (unlock_step ns a) with hc | ⟨h1, h2⟩
        · left; rw [hc, hstep]
        · right; exact ⟨by rw [← hstep]; exact h1, h2⟩
      · right
        refine ⟨hs1, ?_⟩
        rcases ih (unlock_step ns a) with hc | ⟨h1, h2⟩
        · rw [hc, hs2]
        · rw [hs2] at h1
          exact absurd (Option.some.inj h1) (by simp)

theorem stateIn_unlock_cascade_of_ne_locked {ns : List LevelNode} {i : String}
    {s : NodeState} (l : List String) (hs : stateIn ns i = some s)
    (h : s ≠ locked) : stateIn (unlock_cascade ns l) i = some s := by
  rcases stateIn_unlock_cascade_cases ns l i with hc | ⟨h1, _⟩
  · rw [hc, hs]
  · rw [hs] at h1
    exact absurd (Option.some.inj h1) h

theorem stateIn_unlock_cascade_mem {i : String} {l : List String}
    (ns : List LevelNode) (hmem : i ∈ l)
    (hs : stateIn ns i = some locked ∨ stateIn ns i = some unlocked) :
    stateIn (unlock_cascade ns l) i = some unlocked := by
  induction l generalizing ns with
  | nil => cases hmem
  | cons a t ih =>
      show stateIn (unlock_cascade (unlock_step ns a) t) i = some unlocked
      by_cases hia : i = a
      · subst hia
        rcases hs with h | h
        · exact stateIn_unlock_cascade_of_ne_locked t
            (stateIn_unlock_step_locked h) (by simp)
        · rcases stateIn_unlock_step_cases ns i i with hstep | ⟨h1, _⟩
          · exact stateIn_unlock_cascade_of_ne_locked t (by rw [hstep]; exact h) (by simp)
          · rw [h] at h1
            exact absurd (Option.some.inj h1) (by simp)
      · have hit : i ∈ t := by
          cases List.mem_cons.mp hmem with
          | inl h => exact absurd h hia
          | inr h => exact h
        exact ih (unlock_step ns a) hit (by rw [stateIn_unlock_step_ne ns hia]; exact hs)

/-! ## Monotonicity machinery -/

theorem optRankLe_refl (a : Option NodeState) : optRankLe a a = true := by
  cases a with
  | none => rfl
  | some s => simp [optRankLe]

theorem optRankLe_trans {a b c : Option NodeState} (h1 : optRankLe a b = true)
    (h2 : optRankLe b c = true) : optRankLe a c = true := by
  cases a <;> cases b <;> cases c <;> (simp_all [optRankLe]; try omega)

theorem MonoStep.rfl (ns : List LevelNode) : MonoStep ns ns :=
  fun _ => optRankLe_refl _

theorem MonoStep.trans {a b c : List LevelNode} (h1 : MonoStep a b)
    (h2 : MonoStep b c) : MonoStep a c :=
  fun i => optRankLe_trans (h1 i) (h2 i)

theorem MonoStep.of_eq {a b : List LevelNode}
    (h : ∀ i, stateIn b i = stateIn a i) : MonoStep a b := by
  intro i
  rw [h i]
  exact optRankLe_refl _

theorem monoStep_complete_prev (ns : List LevelNode) (cur : Option String) :
    MonoStep ns (complete_prev ns cur) := by
  intro i
  rcases stateIn_complete_prev_cases ns cur i with h | ⟨h1, h2⟩
  · rw [h]; exact optRankLe_refl _
  · rw [h1, h2]; rfl

theorem monoStep_unlock_cascade (ns : List LevelNode) (l : List String) :
    MonoStep ns (unlock_cascade ns l) := by
  intro i
  rcases stateIn_unlock_cascade_cases ns l i with h | ⟨h1, h2⟩
  · rw [h]; exact optRankLe_refl _
  · rw [h1, h2]; rfl

theorem monoStep_setStateById_unlocked {ns : List LevelNode} {j : String}
    (h : stateIn ns j = some locked) :
    MonoStep ns (setStateById ns j unlocked) := by
  intro i
  by_cases hij : i = j
  · subst hij
    rw [h, stateIn_setStateById_self unlocked h]
    rfl
  · rw [stateIn_setStateById_ne ns unlocked hij]
    exact optRankLe_refl _

/-! ## Lemmas about the visual sync and the move operation -/

theorem update_all_visuals_nodes (g : GameState) :
    (update_all_visuals g).all_level_nodes =
      update_node_visuals g.all_level_nodes g.current_player_node_id := rfl

theorem update_all_visuals_current (g : GameState) :
    (update_all_visuals g).current_player_node_id = g.current_player_node_id := rfl

theorem stateOf_update_all_visuals (g : GameState) (i : String) :
    stateOf (update_all_visuals g) i = stateOf g i := by
  unfold stateOf
  rw [update_all_visuals_nodes]
  exact stateIn_update_node_visuals _ _ i

theorem update_all_visuals_flags (g : GameState) :
    ∀ n ∈ (update_all_visuals g).all_level_nodes,
      n.is_current_game_node =
        decide (g.current_player_node_id = some n.level_id) := by
  intro n hn
  rw [update_all_visuals_nodes] at hn
  obtain ⟨m, _, hm⟩ := List.mem_map.mp hn
  rw [← hm]

theorem set_current_player_node_current (g : GameState) (X : String) :
    (set_current_player_node g X).current_player_node_id = some X := rfl

/-- The node dictionary produced by `set_current_player_node`, before
the final visual sync, in terms of the stage helpers. -/
theorem set_current_player_node_nodes (g : GameState) (X : String) :
    (set_current_player_node g X).all_level_nodes =
      update_node_visuals
        (match lookupNode (complete_prev g.all_level_nodes g.current_player_node_id) X with
         | some current_node =>
             unlock_cascade
               (if current_node.node_state = locked
                then setStateById (complete_prev g.all_level_nodes g.current_player_node_id)
                       X unlocked
                else complete_prev g.all_level_nodes g.current_player_node_id)
               current_node.unlocks
         | none => complete_prev g.all_level_nodes g.current_player_node_id)
        (some X) := rfl

theorem monoStep_set_current (g : GameState) (X : String) :
    MonoStep g.all_level_nodes (set_current_player_node g X).all_level_nodes := by
  rw [set_current_player_node_nodes]
  set ns1 := complete_prev g.all_level_nodes g.current_player_node_id with hns1
  have m1 : MonoStep g.all_level_nodes ns1 := monoStep_complete_prev _ _
  cases hl : lookupNode ns1 X with
  | none =>
      simp only
      exact m1.trans (MonoStep.of_eq (fun i => stateIn_update_node_visuals _ _ i))
  | some current_node =>
      simp only
      by_cases hlo : current_node.node_state = locked
      · simp only [hlo, if_pos]
        have hst : stateIn ns1 X = some locked := by rw [stateIn_lookup hl, hlo]
        have m2 : MonoStep ns1 (setStateById ns1 X unlocked) :=
          monoStep_setStateById_unlocked hst
        have m3 : MonoStep (setStateById ns1 X unlocked)
            (unlock_cascade (setStateById ns1 X unlocked) current_node.unlocks) :=
          monoStep_unlock_cascade _ _
        have m4 : MonoStep
            (unlock_cascade (setStateById ns1 X unlocked) current_node.unlocks)
            (update_node_visuals
              (unlock_cascade (setStateById ns1 X unlocked) current_node.unlocks)
              (some X)) :=
          MonoStep.of_eq (fun i => stateIn_update_node_visuals _ _ i)
        exact ((m1.trans m2).trans m3).trans m4
      · simp only [hlo, ite_false]
        have m3 : MonoStep ns1 (unlock_cascade ns1 current_node.unlocks) :=
          monoStep_unlock_cascade _ _
        have m4 : MonoStep (unlock_cascade ns1 current_node.unlocks)
            (update_node_visuals (unlock_cascade ns1 current_node.unlocks) (some X)) :=
          MonoStep.of_eq (fun i => stateIn_update_node_visuals _ _ i)
        exact (m1.trans m3).trans m4

theorem idsOf_set_current (g : GameState) (X : String) :
    idsOf (set_current_player_node g X).all_level_nodes =
      idsOf g.all_level_nodes := by
  rw [set_current_player_node_nodes]
  rw [idsOf_update_node_visuals]
  cases hl : lookupNode (complete_prev g.all_level_nodes g.current_player_node_id) X with
  | none => exact idsOf_complete_prev _ _
  | some current_node =>
      simp only
      by_cases hlo : current_node.node_state = locked
      · simp only [hlo, if_pos]
        rw [idsOf_unlock_cascade, idsOf_setStateById, idsOf_complete_prev]
      · simp only [hlo, ite_false]
        rw [idsOf_unlock_cascade, idsOf_complete_prev]

theorem mem_idsOf_of_lookup {ns : List LevelNode} {c : String} {n : LevelNode}
    (h : lookupNode ns c = some n) : c ∈ idsOf ns := by
  obtain ⟨hid, hmem⟩ := lookupNode_eq_some h
  exact List.mem_map.mpr ⟨n, hmem, hid⟩

/-- After a move, a listed unlock target that was locked is unlocked. -/
theorem stateOf_set_current_unlocks {g : GameState} {X : String} {xn : LevelNode}
    (hx : lookupNode g.all_level_nodes X = some xn) {uid : String}
    (hu : uid ∈ xn.unlocks) (hl : stateOf g uid = some locked) :
    stateOf (set_current_player_node g X) uid = some unlocked := by
  obtain ⟨xn1, hxl, hid1, hunl⟩ :=
    lookupNode_complete_prev g.current_player_node_id hx
  unfold stateOf
  rw [set_current_player_node_nodes, stateIn_update_node_visuals, hxl]
  simp only
  have hns1 : stateIn (complete_prev g.all_level_nodes g.current_player_node_id) uid
      = some locked := stateIn_complete_prev_locked _ hl
  by_cases huX : uid = X
  · subst huX
    have hxn1 : xn1.node_state = locked := by
      have := stateIn_lookup hxl
      rw [hns1] at this
      exact (Option.some.inj this).symm
    rw [if_pos hxn1]
    refine stateIn_unlock_cascade_mem _ (hunl ▸ hu) (Or.inr ?_)
    exact stateIn_setStateById_self unlocked hns1
  · by_cases hxn1 : xn1.node_state = locked
    · rw [if_pos hxn1]
      refine stateIn_unlock_cascade_mem _ (hunl ▸ hu) (Or.inl ?_)
      rw [stateIn_setStateById_ne _ unlocked huX]
      exact hns1
    · rw [if_neg hxn1]
      exact stateIn_unlock_cascade_mem _ (hunl ▸ hu) (Or.inl hns1)

/-- A move touches no node outside the destination's unlock list, the
destination itself, and the vacated current node. -/
theorem stateOf_set_current_outside {g : GameState} {X : String} {xn : LevelNode}
    (hx : lookupNode g.all_level_nodes X = some xn) {i : String}
    (h1 : i ∉ xn.unlocks) (h2 : i ≠ X)
    (h3 : g.current_player_node_id ≠ some i) :
    stateOf (set_current_player_node g X) i = stateOf g i := by
  obtain ⟨xn1, hxl, hid1, hunl⟩ :=
    lookupNode_complete_prev g.current_player_node_id hx
  unfold stateOf
  rw [set_current_player_node_nodes, stateIn_update_node_visuals, hxl]
  simp only
  have hns1 : stateIn (complete_prev g.all_level_nodes g.current_player_node_id) i
      = stateIn g.all_level_nodes i := stateIn_complete_prev_ne _ h3
  by_cases hxn1 : xn1.node_state = locked
  · rw [if_pos hxn1, stateIn_unlock_cascade_not_mem _ (hunl ▸ h1),
      stateIn_setStateById_ne _ unlocked h2]
    exact hns1
  · rw [if_neg hxn1, stateIn_unlock_cascade_not_mem _ (hunl ▸ h1)]
    exact hns1

/-- A vacated current node that was unlocked or completed is completed
after the move. -/
theorem stateOf_set_current_prev {g : GameState} {X p : String} {pn : LevelNode}
    (hc : g.current_player_node_id = some p) (hp : p ≠ "")
    (hlp : lookupNode g.all_level_nodes p = some pn) (hne : X ≠ p)
    (hst : pn.node_state = unlocked ∨ pn.node_state = completed) :
    stateOf (set_current_player_node g X) p = some completed := by
  have hns1 : stateIn (complete_prev g.all_level_nodes g.current_player_node_id) p
      = some completed := by
    rw [hc, complete_prev_some, if_pos hp, complete_prev_node_eq_some hlp]
    rcases hst with h | h
    · rw [if_pos h]
      exact stateIn_setStateById_self completed (stateIn_lookup hlp)
    · rw [if_neg (by rw [h]; simp)]
      rw [stateIn_lookup hlp, h]
  unfold stateOf
  rw [set_current_player_node_nodes, stateIn_update_node_visuals]
  cases hXl : lookupNode (complete_prev g.all_level_nodes g.current_player_node_id) X with
  | none => exact hns1
  | some cn =>
      simp only
      have hpX : p ≠ X := fun h => hne h.symm
      by_cases hlo : cn.node_state = locked
      · rw [if_pos hlo]
        refine stateIn_unlock_cascade_of_ne_locked _ ?_ (by simp)
        rw [stateIn_setStateById_ne _ unlocked hpX]
        exact hns1
      · rw [if_neg hlo]
        exact stateIn_unlock_cascade_of_ne_locked _ hns1 (by simp)

/-! ## Bridge lemmas between the two variants -/

theorem complete_prev_v2_eq {ns ns1 : List LevelNode} {cur : Option String}
    (h : complete_prev_v2 ns cur = some ns1) : ns1 = complete_prev ns cur := by
  cases cur with
  | none => exact (Option.some.inj h).symm
  | some cid =>
      simp only [complete_prev_v2] at h
      rw [complete_prev_some]
      by_cases hcid : cid = ""
      · rw [if_neg (fun hne => hne hcid)] at h
        rw [if_neg (fun hne => hne hcid)]
        exact (Option.some.inj h).symm
      · rw [if_pos hcid] at h
        cases hl : lookupNode ns cid with
        | none => rw [hl] at h; cases h
        | some prev_node =>
            rw [hl] at h
            simp only [Option.map] at h
            rw [if_pos hcid, complete_prev_node_eq_some hl]
            exact (Option.some.inj h).symm

theorem update_all_visuals_v2_eq {g g2 : GameState}
    (h : update_all_visuals_v2 g = some g2) :
    g2.all_level_nodes = (update_all_visuals g).all_level_nodes ∧
      g2.current_player_node_id = g.current_player_node_id := by
  unfold update_all_visuals_v2 at h
  cases hps : update_path_visuals_v2
      (update_node_visuals g.all_level_nodes g.current_player_node_id)
      g.paths_entities with
  | none => rw [hps] at h; cases h
  | some ps =>
      rw [hps] at h
      simp only [Option.map] at h
      have := Option.some.inj h
      rw [← this]
      exact ⟨rfl, rfl⟩

theorem set_current_v2_eq {g g2 : GameState} {X : String}
    (h : set_current_player_node_v2 g X = some g2) :
    g2.all_level_nodes = (set_current_player_node g X).all_level_nodes ∧
      g2.current_player_node_id = some X := by
  unfold set_current_player_node_v2 at h
  cases hcp : complete_prev_v2 g.all_level_nodes g.current_player_node_id with
  | none => rw [hcp] at h; cases h
  | some ns1 =>
      rw [hcp] at h
      have hns1 := complete_prev_v2_eq hcp
      subst hns1
      simp only [Option.bind] at h
      cases hlk : lookupNode (complete_prev g.all_level_nodes g.current_player_node_id) X with
      | none => rw [hlk] at h; cases h
      | some cn =>
          rw [hlk] at h
          obtain ⟨h1, h2⟩ := update_all_visuals_v2_eq h
          constructor
          · rw [h1, set_current_player_node_nodes, hlk]
            rfl
          · exact h2

/-! ## Case analyses of the click handlers -/

theorem handle_node_click_fst_cases (g : GameState) (c : String) :
    (handle_node_click g c).1 = g ∨
      ((lookupNode g.all_level_nodes c).isSome = true ∧
       (handle_node_click g c).1 = set_current_player_node g c) := by
  unfold handle_node_click
  cases hlk : lookupNode g.all_level_nodes c with
  | none => left; rfl
  | some n =>
      simp only
      split
      · left; rfl
      · split
        · left; rfl
        · split
          · left; rfl
          · right; exact ⟨rfl, rfl⟩

theorem handle_node_click_v2_cases {g g2 : GameState} {c : String} {e : ClickEffect}
    (h : handle_node_click_v2 g c = some (g2, e)) :
    g2 = g ∨ set_current_player_node_v2 g c = some g2 := by
  unfold handle_node_click_v2 at h
  cases hlk : lookupNode g.all_level_nodes c with
  | none => rw [hlk] at h; cases h
  | some n =>
      rw [hlk] at h
      simp only [Option.bind] at h
      split at h
      · left
        exact (congrArg Prod.fst (Option.some.inj h)).symm
      · split at h
        · left
          exact (congrArg Prod.fst (Option.some.inj h)).symm
        · split at h
          · cases hm : set_current_player_node_v2 g c with
            | none => rw [hm] at h; cases h
            | some gm =>
                rw [hm] at h
                simp only [Option.map] at h
                right
                exact congrArg some (congrArg Prod.fst (Option.some.inj h))
          · left
            exact (congrArg Prod.fst (Option.some.inj h)).symm

/-! ## Initialization lemmas -/

theorem initial_current_eq_none {cfg : List LevelConfig}
    (h : ∀ d ∈ cfg, d.initial_state ≠ unlocked) : initial_current cfg = none := by
  unfold initial_current
  induction cfg with
  | nil => rfl
  | cons d t ih =>
      rw [List.foldl_cons, if_neg (fun hc => h d (List.mem_cons_self d t) hc.1)]
      exact ih (fun e he => h e (List.mem_cons_of_mem d he))

theorem initial_current_v2_eq_none {cfg : List LevelConfig}
    (h : ∀ d ∈ cfg, d.initial_state ≠ unlocked) : initial_current_v2 cfg = none := by
  unfold initial_current_v2
  induction cfg with
  | nil => rfl
  | cons d t ih =>
      rw [List.foldl_cons, if_neg (fun hc => h d (List.mem_cons_self d t) hc.1)]
      exact ih (fun e he => h e (List.mem_cons_of_mem d he))

theorem foldl_pick_mem {p : Option String → LevelConfig → Option String}
    (hp : ∀ a d, p a d = a ∨ p a d = some d.id) :
    ∀ (cfg : List LevelConfig) (init : Option String) (c : String),
      cfg.foldl p init = some c → init = some c ∨ c ∈ cfg.map (fun d => d.id) := by
  intro cfg
  induction cfg with
  | nil =>
      intro init c h
      left; exact h
  | cons d t ih =>
      intro init c h
      rw [List.foldl_cons] at h
      rcases ih (p init d) c h with h1 | h1
      · rcases hp init d with h2 | h2
        · left; rw [← h2]; exact h1
        · right
          rw [h2] at h1
          rw [List.map_cons]
          exact (Option.some.inj h1) ▸ List.mem_cons_self _ _
      · right
        rw [List.map_cons]
        exact List.mem_cons_of_mem _ h1

theorem initial_current_mem {cfg : List LevelConfig} {c : String}
    (h : initial_current cfg = some c) : c ∈ cfg.map (fun d => d.id) := by
  rcases foldl_pick_mem
      (p := fun a d => if d.initial_state = unlocked ∧ a = none then some d.id else a)
      (fun a d => by
        show (if d.initial_state = unlocked ∧ a = none then some d.id else a) = a ∨
          (if d.initial_state = unlocked ∧ a = none then some d.id else a) = some d.id
        by_cases hc : d.initial_state = unlocked ∧ a = none
        · right; rw [if_pos hc]
        · left; rw [if_neg hc])
      cfg none c h with h1 | h1
  · cases h1
  · exact h1

theorem initial_current_v2_mem {cfg : List LevelConfig} {c : String}
    (h : initial_current_v2 cfg = some c) : c ∈ cfg.map (fun d => d.id) := by
  rcases foldl_pick_mem
      (p := fun a d =>
        if d.initial_state = unlocked ∧ truthyId a = false then some d.id else a)
      (fun a d => by
        show (if d.initial_state = unlocked ∧ truthyId a = false
              then some d.id else a) = a ∨
          (if d.initial_state = unlocked ∧ truthyId a = false
           then some d.id else a) = some d.id
        by_cases hc : d.initial_state = unlocked ∧ truthyId a = false
        · right; rw [if_pos hc]
        · left; rw [if_neg hc])
      cfg none c h with h1 | h1
  · cases h1
  · exact h1

theorem setup_fallback_cons_none (d : LevelConfig) (t : List LevelConfig)
    (nodes : List LevelNode) :
    setup_fallback (d :: t) nodes none =
      if d.id ≠ "" ∧ nodes.any (fun n => n.level_id = d.id) then
        (setStateById nodes d.id unlocked, some d.id)
      else (nodes, some d.id) := rfl

theorem setup_fallback_cons_some (d : LevelConfig) (t : List LevelConfig)
    (nodes : List LevelNode) (c : String) :
    setup_fallback (d :: t) nodes (some c) = (nodes, some c) := rfl

theorem setup_fallback_current_mem {cfg : List LevelConfig}
    {nodes : List LevelNode} {cur : Option String} (hne : cfg ≠ [])
    (hids : idsOf nodes = cfg.map (fun d => d.id))
    (hcur : ∀ c, cur = some c → c ∈ cfg.map (fun d => d.id)) :
    idsOf (setup_fallback cfg nodes cur).1 = cfg.map (fun d => d.id) ∧
      ∃ c, (setup_fallback cfg nodes cur).2 = some c ∧ c ∈ cfg.map (fun d => d.id) := by
  cases cfg with
  | nil => exact absurd rfl hne
  | cons d t =>
      cases cur with
      | some c =>
          rw [setup_fallback_cons_some]
          exact ⟨hids, c, rfl, hcur c rfl⟩
      | none =>
          rw [setup_fallback_cons_none]
          by_cases hc : d.id ≠ "" ∧ nodes.any (fun n => n.level_id = d.id)
          · rw [if_pos hc]
            refine ⟨?_, d.id, rfl, by rw [List.map_cons]; exact List.mem_cons_self _ _⟩
            rw [idsOf_setStateById]
            exact hids
          · rw [if_neg hc]
            exact ⟨hids, d.id, rfl, by rw [List.map_cons]; exact List.mem_cons_self _ _⟩

/-! ## The single-current-node invariant -/

theorem currentFlagsOK_update (ns : List LevelNode) (cur : Option String) :
    currentFlagsOK (update_node_visuals ns cur) cur := by
  intro n hn
  obtain ⟨m, _, he⟩ := List.mem_map.mp hn
  rw [← he]

theorem invC1_setup {cfg : List LevelConfig} (hne : cfg ≠ []) :
    InvC1 cfg (setup_level_nodes_and_paths cfg) := by
  have hids : idsOf (create_nodes cfg) = cfg.map (fun d => d.id) :=
    idsOf_create_nodes cfg
  have hcur : ∀ c, initial_current cfg = some c → c ∈ cfg.map (fun d => d.id) :=
    fun c h => initial_current_mem h
  obtain ⟨hfids, c, hfc, hcm⟩ :=
    setup_fallback_current_mem hne hids hcur
  unfold setup_level_nodes_and_paths
  refine ⟨?_, ⟨c, ?_, ?_⟩, ?_⟩
  · rw [update_all_visuals_nodes, idsOf_update_node_visuals]
    exact hfids
  · rw [update_all_visuals_current]
    exact hfc
  · rw [update_all_visuals_nodes, idsOf_update_node_visuals, hfids]
    exact hcm
  · rw [update_all_visuals_current, update_all_visuals_nodes]
    exact currentFlagsOK_update _ _

theorem invC1_click {cfg : List LevelConfig} {g : GameState} (c : String)
    (h : InvC1 cfg g) : InvC1 cfg (handle_node_click g c).1 := by
  rcases handle_node_click_fst_cases g c with he | ⟨hs, he⟩
  · rw [he]; exact h
  · rw [he]
    obtain ⟨n, hn⟩ := Option.isSome_iff_exists.mp hs
    refine ⟨?_, ⟨c, ?_, ?_⟩, ?_⟩
    · rw [idsOf_set_current]
      exact h.1
    · exact set_current_player_node_current g c
    · rw [idsOf_set_current]
      rw [h.1, ← h.1]
      exact mem_idsOf_of_lookup hn
    · rw [set_current_player_node_current, set_current_player_node_nodes]
      exact currentFlagsOK_update _ _

theorem invC1_setup_v2 {cfg : List LevelConfig} {g : GameState} (hne : cfg ≠ [])
    (h : setup_level_nodes_and_paths_v2 cfg = some g) : InvC1 cfg g := by
  unfold setup_level_nodes_and_paths_v2 at h
  cases hfb : setup_fallback_v2 cfg (create_nodes cfg) (initial_current_v2 cfg) with
  | none => rw [hfb] at h; cases h
  | some fb =>
      rw [hfb] at h
      simp only [Option.bind] at h
      obtain ⟨h1, h2⟩ := update_all_visuals_v2_eq h
      have hfb2 : idsOf fb.1 = cfg.map (fun d => d.id) ∧
          ∃ c, fb.2 = some c ∧ c ∈ cfg.map (fun d => d.id) := by
        cases cfg with
        | nil => exact absurd rfl hne
        | cons d t =>
            simp only [setup_fallback_v2] at hfb
            by_cases ht : truthyId (initial_current_v2 (d :: t)) = false
            · rw [if_pos ht] at hfb
              by_cases hany : (create_nodes (d :: t)).any
                  (fun n => n.level_id = d.id) = true
              · rw [if_pos hany] at hfb
                have := Option.some.inj hfb
                rw [← this]
                refine ⟨?_, d.id, rfl, by rw [List.map_cons]; exact List.mem_cons_self _ _⟩
                rw [idsOf_setStateById]
                exact idsOf_create_nodes _
              · rw [if_neg hany] at hfb
                cases hfb
            · rw [if_neg ht] at hfb
              have := Option.some.inj hfb
              rw [← this]
              refine ⟨idsOf_create_nodes _, ?_⟩
              cases hcv : initial_current_v2 (d :: t) with
              | none => rw [hcv] at ht; exact absurd rfl ht
              | some cc => exact ⟨cc, rfl, initial_current_v2_mem hcv⟩
      obtain ⟨hfids, cc, hfc, hcm⟩ := hfb2
      refine ⟨?_, ⟨cc, ?_, ?_⟩, ?_⟩
      · rw [h1, update_all_visuals_nodes, idsOf_update_node_visuals]
        exact hfids
      · rw [h2]
        exact hfc
      · rw [h1, update_all_visuals_nodes, idsOf_update_node_visuals, hfids]
        exact hcm
      · intro n hn
        rw [h1] at hn
        rw [h2]
        exact currentFlagsOK_update _ _ n hn

theorem invC1_click_v2 {cfg : List LevelConfig} {g g2 : GameState} {c : String}
    {e : ClickEffect} (hstep : handle_node_click_v2 g c = some (g2, e))
    (h : InvC1 cfg g) : InvC1 cfg g2 := by
  rcases handle_node_click_v2_cases hstep with he | hm
  · rw [he]; exact h
  · obtain ⟨h1, h2⟩ := set_current_v2_eq hm
    have hlk : (lookupNode g.all_level_nodes c).isSome = true := by
      unfold handle_node_click_v2 at hstep
      cases hl : lookupNode g.all_level_nodes c with
      | none => rw [hl] at hstep; cases hstep
      | some n => rfl
    obtain ⟨n, hn⟩ := Option.isSome_iff_exists.mp hlk
    refine ⟨?_, ⟨c, ?_, ?_⟩, ?_⟩
    · rw [h1, idsOf_set_current]
      exact h.1
    · rw [h2]
    · rw [h1, idsOf_set_current, h.1, ← h.1]
      exact mem_idsOf_of_lookup hn
    · intro m hm2
      rw [h1, set_current_player_node_nodes] at hm2
      rw [h2]
      exact currentFlagsOK_update _ _ m hm2

theorem invC1_reachable {cfg : List LevelConfig} {g : GameState} (hne : cfg ≠ [])
    (h : Reachable cfg g) : InvC1 cfg g := by
  induction h with
  | init => exact invC1_setup hne
  | click g c _ ih => exact invC1_click c ih

theorem invC1_reachable_v2 {cfg : List LevelConfig} {g : GameState} (hne : cfg ≠ [])
    (h : Reachable_v2 cfg g) : InvC1 cfg g := by
  induction h with
  | init g hg => exact invC1_setup_v2 hne hg
  | click g g2 c e _ hstep ih => exact invC1_click_v2 hstep ih

theorem countP_current {ns : List LevelNode} {c : String}
    (hnd : (idsOf ns).Nodup) (hc : c ∈ idsOf ns)
    (hf : currentFlagsOK ns (some c)) :
    ns.countP (fun n => n.is_current_game_node) = 1 := by
  have h1 : ns.countP (fun n => n.is_current_game_node)
      = ns.countP (fun n => decide (some c = some (n.level_id))) :=
    List.countP_congr (fun n hn => by rw [hf n hn])
  rw [h1]
  have h2 : ns.countP (fun n => decide (some c = some (n.level_id)))
      = (idsOf ns).countP (fun i => decide (some c = some i)) := by
    unfold idsOf
    rw [List.countP_map]
    rfl
  rw [h2]
  have h3 : (idsOf ns).countP (fun i => decide (some c = some i))
      = (idsOf ns).count c := by
    rw [List.count_eq_countP]
    refine List.countP_congr (fun i _ => ?_)
    simp only [decide_eq_true_eq, beq_iff_eq, Option.some.injEq]
    exact eq_comm
  rw [h3]
  exact List.count_eq_one_of_mem hnd hc

/-! ## Equation lemmas for the click handlers -/

theorem handle_node_click_eq_some {g : GameState} {clicked : String} {n : LevelNode}
    (h : lookupNode g.all_level_nodes clicked = some n) :
    handle_node_click g clicked =
      if n.node_state = locked then (g, some ClickEffect.shake)
      else if g.current_player_node_id = some n.level_id then
        (g, some ClickEffect.enterLevel)
      else if compute_can_move g n = false ∧ n.node_state ≠ unlocked ∧
              n.node_state ≠ completed then
        (g, some ClickEffect.shake)
      else (set_current_player_node g clicked, some ClickEffect.moved) := by
  unfold handle_node_click
  rw [h]

theorem handle_node_click_v2_eq_some {g : GameState} {clicked : String} {n : LevelNode}
    (h : lookupNode g.all_level_nodes clicked = some n) :
    handle_node_click_v2 g clicked =
      if n.node_state = locked then some (g, ClickEffect.shake)
      else if g.current_player_node_id = some n.level_id then
        some (g, ClickEffect.enterLevel)
      else if n.level_id ∈ get_adjacent_nodes g.paths_entities g.current_player_node_id ∧
              (n.node_state = unlocked ∨ n.node_state = completed) then
        (set_current_player_node_v2 g clicked).map (fun g2 => (g2, ClickEffect.moved))
      else some (g, ClickEffect.shake) := by
  unfold handle_node_click_v2
  rw [h]
  rfl

/-! ## Path-visual branch lemmas -/

theorem update_one_path_nodes_spec (p : PathEntity) (n1 n2 : LevelNode) :
    (n1.node_state = locked ∧ n2.node_state = locked →
      (update_one_path_nodes p n1 n2).visible = false) ∧
    ((update_one_path_nodes p n1 n2).thickness = 8 ↔
      (n1.node_state ≠ locked ∧ n2.node_state ≠ locked ∧
       (n1.is_current_game_node = true ∨ n2.is_current_game_node = true))) := by
  unfold update_one_path_nodes
  by_cases ha : n1.node_state ≠ locked ∧ n2.node_state ≠ locked
  · rw [if_pos ha]
    by_cases hcur : n1.is_current_game_node = true ∨ n2.is_current_game_node = true
    · rw [if_pos hcur]
      exact ⟨fun hboth => absurd hboth.1 ha.1,
        ⟨fun _ => ⟨ha.1, ha.2, hcur⟩, fun _ => rfl⟩⟩
    · rw [if_neg hcur]
      refine ⟨fun hboth => absurd hboth.1 ha.1, ⟨fun h8 => ?_, fun hr => absurd hr.2.2 hcur⟩⟩
      exfalso
      revert h8
      split
      · exact fun h8 => absurd h8 (by simp)
      · split
        · exact fun h8 => absurd h8 (by simp)
        · exact fun h8 => absurd h8 (by simp)
  · rw [if_neg ha]
    refine ⟨fun hboth => ?_, ⟨fun h8 => absurd h8 (by simp),
      fun hr => absurd ⟨hr.1, hr.2.1⟩ ha⟩⟩
    exact decide_eq_false (fun hvc => hvc.2 hboth)

theorem update_one_path_nodes_v2_spec (p : PathEntity) (n1 n2 : LevelNode) :
    (n1.node_state = locked ∧ n2.node_state = locked →
      (update_one_path_nodes_v2 p n1 n2).visible = false) ∧
    ((update_one_path_nodes_v2 p n1 n2).thickness = 8 ↔
      (n1.node_state ≠ locked ∧ n2.node_state ≠ locked ∧
       (n1.is_current_game_node = true ∨ n2.is_current_game_node = true))) := by
  unfold update_one_path_nodes_v2
  by_cases ha : n1.node_state ≠ locked ∧ n2.node_state ≠ locked
  · rw [if_pos ha]
    by_cases hcur : n1.is_current_game_node = true ∨ n2.is_current_game_node = true
    · rw [if_pos hcur]
      exact ⟨fun hboth => absurd hboth.1 ha.1,
        ⟨fun _ => ⟨ha.1, ha.2, hcur⟩, fun _ => rfl⟩⟩
    · rw [if_neg hcur]
      refine ⟨fun hboth => absurd hboth.1 ha.1, ⟨fun h8 => ?_, fun hr => absurd hr.2.2 hcur⟩⟩
      exfalso
      revert h8
      split
      · exact fun h8 => absurd h8 (by simp)
      · exact fun h8 => absurd h8 (by simp)
  · rw [if_neg ha]
    refine ⟨fun hboth => ?_, ⟨fun h8 => absurd h8 (by simp),
      fun hr => absurd ⟨hr.1, hr.2.1⟩ ha⟩⟩
    refine decide_eq_false (fun hvc => ?_)
    rcases hvc with h | h <;> rcases h with h | h <;>
      simp [hboth.1, hboth.2] at h

theorem update_one_path_key (ns : List LevelNode) (p : PathEntity) :
    (update_one_path ns p).key = p.key := by
  unfold update_one_path
  cases lookupNode ns p.key.1 with
  | none => rfl
  | some n1 =>
      cases lookupNode ns p.key.2 with
      | none => rfl
      | some n2 =>
          simp only
          unfold update_one_path_nodes
          split
          · split
            · rfl
            · split
              · rfl
              · split
                · rfl
                · rfl
          · rfl

theorem update_one_path_eq_nodes {ns : List LevelNode} {p : PathEntity}
    {n1 n2 : LevelNode} (h1 : lookupNode ns p.key.1 = some n1)
    (h2 : lookupNode ns p.key.2 = some n2) :
    update_one_path ns p = update_one_path_nodes p n1 n2 := by
  unfold update_one_path
  rw [h1, h2]

theorem update_one_path_v2_eq_nodes {ns : List LevelNode} {p : PathEntity}
    {n1 n2 : LevelNode} (h1 : lookupNode ns p.key.1 = some n1)
    (h2 : lookupNode ns p.key.2 = some n2) :
    update_one_path_v2 ns p = some (update_one_path_nodes_v2 p n1 n2) := by
  unfold update_one_path_v2
  rw [h1, h2]

theorem update_one_path_v2_key {ns : List LevelNode} {p p2 : PathEntity}
    (h : update_one_path_v2 ns p = some p2) : p2.key = p.key := by
  unfold update_one_path_v2 at h
  cases hk1 : lookupNode ns p.key.1 with
  | none => rw [hk1] at h; exact Option.noConfusion h
  | some n1 =>
      rw [hk1] at h
      cases hk2 : lookupNode ns p.key.2 with
      | none => rw [hk2] at h; exact Option.noConfusion h
      | some n2 =>
          rw [hk2] at h
          have h2 : update_one_path_nodes_v2 p n1 n2 = p2 := Option.some.inj h
          rw [← h2]
          unfold update_one_path_nodes_v2
          split
          · split
            · rfl
            · split
              · rfl
              · rfl
          · rfl

theorem update_path_visuals_v2_mem {ns : List LevelNode} {l l2 : List PathEntity}
    {p : PathEntity} (h : update_path_visuals_v2 ns l = some l2) (hp : p ∈ l2) :
    ∃ q ∈ l, update_one_path_v2 ns q = some p := by
  induction l generalizing l2 with
  | nil =>
      have : l2 = [] := (Option.some.inj h).symm
      rw [this] at hp
      cases hp
  | cons q rest ih =>
      unfold update_path_visuals_v2 at h
      cases hq : update_one_path_v2 ns q with
      | none => rw [hq] at h; cases h
      | some p2 =>
          rw [hq] at h
          simp only at h
          cases hr : update_path_visuals_v2 ns rest with
          | none => rw [hr] at h; cases h
          | some r2 =>
              rw [hr] at h
              simp only [Option.map] at h
              have hl2 : l2 = p2 :: r2 := (Option.some.inj h).symm
              rw [hl2] at hp
              rcases List.mem_cons.mp hp with he | hm
              · exact ⟨q, List.mem_cons_self q rest, he ▸ hq⟩
              · obtain ⟨q2, hq2, hq2e⟩ := ih hr hm
                exact ⟨q2, List.mem_cons_of_mem q hq2, hq2e⟩

/-! ## Lemmas for the fallback-start claim -/

theorem lookupNode_create_nodes_head (d : LevelConfig) (t : List LevelConfig) :
    lookupNode (create_nodes (d :: t)) d.id =
      some { level_id := d.id, unlocks := d.unlocks, node_state := d.initial_state,
             is_current_game_node := false } := by
  unfold create_nodes lookupNode
  rw [List.map_cons]
  exact List.find?_cons_of_pos _ (by simp)

theorem create_nodes_any_head (d : LevelConfig) (t : List LevelConfig) :
    (create_nodes (d :: t)).any (fun n => n.level_id = d.id) = true := by
  unfold create_nodes
  rw [List.map_cons]
  simp

theorem create_paths_eq_nil {nodes : List LevelNode}
    (h : ∀ n ∈ nodes, n.unlocks = []) : create_paths nodes = [] := by
  unfold create_paths
  have aux : ∀ (l : List LevelNode) (acc : List PathEntity),
      (∀ n ∈ l, n.unlocks = []) →
      l.foldl
        (fun acc2 node =>
          node.unlocks.foldl
            (fun acc3 tid =>
              if nodes.any (fun m => m.level_id = tid) then
                let k := path_key node.level_id tid
                if acc3.any (fun p => p.key = k) then acc3
                else acc3 ++ [{ key := k, path_color := PathColor.start,
                                thickness := 5, visible := true }]
              else acc3)
            acc2)
        acc = acc := by
    intro l
    induction l with
    | nil => intro acc _; rfl
    | cons a t ih =>
        intro acc hl
        simp only [List.foldl_cons]
        rw [hl a (List.mem_cons_self a t), List.foldl_nil]
        exact ih acc (fun n hn => hl n (List.mem_cons_of_mem a hn))
  exact aux nodes [] h

theorem create_nodes_unlocks_nil {cfg : List LevelConfig}
    (h : ∀ e ∈ cfg, e.unlocks = []) : ∀ n ∈ create_nodes cfg, n.unlocks = [] := by
  intro n hn
  obtain ⟨d, hd, he⟩ := List.mem_map.mp hn
  rw [← he]
  exact h d hd

theorem update_all_visuals_paths (g : GameState) :
    (update_all_visuals g).paths_entities =
      update_path_visuals
        (update_node_visuals g.all_level_nodes g.current_player_node_id)
        g.paths_entities := rfl

theorem update_all_visuals_v2_paths {g g2 : GameState}
    (h : update_all_visuals_v2 g = some g2) :
    update_path_visuals_v2
        (update_node_visuals g.all_level_nodes g.current_player_node_id)
        g.paths_entities = some g2.paths_entities := by
  unfold update_all_visuals_v2 at h
  cases hps : update_path_visuals_v2
      (update_node_visuals g.all_level_nodes g.current_player_node_id)
      g.paths_entities with
  | none => rw [hps] at h; cases h
  | some ps =>
      rw [hps] at h
      simp only [Option.map] at h
      rw [← Option.some.inj h]

/-! ## Claim theorems -/

/-- C1: after initialization of a nonempty configuration with unique ids
and after every completed click sequence — in either source variant —
exactly one node has `is_current_game_node = true`, namely the node
whose id equals `current_player_node_id`; every other node's flag is
false. -/
theorem claim1_single_current_node (cfg : List LevelConfig) (hne : cfg ≠ [])
    (hnd : (cfg.map (fun d => d.id)).Nodup) :
    (∀ g, Reachable cfg g →
      g.all_level_nodes.countP (fun n => n.is_current_game_node) = 1 ∧
      ∀ n ∈ g.all_level_nodes,
        (n.is_current_game_node = true ↔
         g.current_player_node_id = some n.level_id)) ∧
    (∀ g, Reachable_v2 cfg g →
      g.all_level_nodes.countP (fun n => n.is_current_game_node) = 1 ∧
      ∀ n ∈ g.all_level_nodes,
        (n.is_current_game_node = true ↔
         g.current_player_node_id = some n.level_id)) := by
  have key : ∀ g, InvC1 cfg g →
      g.all_level_nodes.countP (fun n => n.is_current_game_node) = 1 ∧
      ∀ n ∈ g.all_level_nodes,
        (n.is_current_game_node = true ↔
         g.current_player_node_id = some n.level_id) := by
    intro g hInv
    obtain ⟨hids, ⟨c, hc, hcm⟩, hflags⟩ := hInv
    constructor
    · refine countP_current (c := c) (by rw [hids]; exact hnd) hcm ?_
      rw [← hc]
      exact hflags
    · intro n hn
      rw [hflags n hn]
      simp
  exact ⟨fun g hg => key g (invC1_reachable hne hg),
         fun g hg => key g (invC1_reachable_v2 hne hg)⟩

theorem claim1_witness :
    (setup_level_nodes_and_paths levels_data).all_level_nodes.countP
      (fun n => n.is_current_game_node) = 1 :=
  ((claim1_single_current_node levels_data (by decide) (by decide)).1
    (setup_level_nodes_and_paths levels_data) Reachable.init).1

/-- C2: a click never makes any node's state regress: in both variants,
the state of every id after `handle_node_click` ranks at least its state
before, along locked → unlocked → completed; over any sequence of clicks
this gives monotone evolution of every node's state. -/
theorem claim2_monotone_states (g : GameState) (c i : String) :
    optRankLe (stateOf g i) (stateOf (handle_node_click g c).1 i) = true ∧
    (∀ g2 e, handle_node_click_v2 g c = some (g2, e) →
      optRankLe (stateOf g i) (stateOf g2 i) = true) := by
  constructor
  · rcases handle_node_click_fst_cases g c with he | ⟨_, he⟩
    · rw [he]
      exact optRankLe_refl _
    · rw [he]
      exact monoStep_set_current g c i
  · intro g2 e hstep
    rcases handle_node_click_v2_cases hstep with he | hm
    · rw [he]
      exact optRankLe_refl _
    · obtain ⟨h1, _⟩ := set_current_v2_eq hm
      unfold stateOf
      rw [h1]
      exact monoStep_set_current g c i

theorem claim2_witness :
    optRankLe (stateOf (setup_level_nodes_and_paths levels_data) "1-2")
        (stateOf (handle_node_click (setup_level_nodes_and_paths levels_data) "1-2").1
          "1-2") = true ∧
    optRankLe (stateOf (setup_level_nodes_and_paths levels_data) "1-2")
        (stateOf (setup_level_nodes_and_paths levels_data) "1-2") = true :=
  ⟨(claim2_monotone_states (setup_level_nodes_and_paths levels_data) "1-2" "1-2").1,
   (claim2_monotone_states (setup_level_nodes_and_paths levels_data) "1-2" "1-2").2
      (setup_level_nodes_and_paths levels_data) ClickEffect.shake (by decide)⟩

/-- C3 counterexample: in the shipped configuration, `moveTo("1-2")`
changes the state of node `1-1`, which is not listed in `1-2`'s
`unlocks` (`["1-A", "1-3"]`), from unlocked to completed — so a node
outside the destination's unlock list does change state as a side
effect of the move, contrary to the claim. -/
theorem claim3_counterexample :
    stateOf (setup_level_nodes_and_paths levels_data) "1-1" = some NodeState.unlocked ∧
    ((lookupNode (setup_level_nodes_and_paths levels_data).all_level_nodes "1-2").map
      (fun n => decide ("1-1" ∈ n.unlocks))) = some false ∧
    stateOf (set_current_player_node (setup_level_nodes_and_paths levels_data) "1-2")
      "1-1" = some NodeState.completed := by
  decide

/-- C3 (amended): after `moveTo(X)` in either variant, every node listed
in `X.unlocks` that was locked before the move is unlocked after it; and
no node outside that list — other than the vacated previous current node
and the destination `X` itself — changes state as a side effect of the
move. -/
theorem claim3_unlock_cascade_amended (g : GameState) (X : String) (xn : LevelNode)
    (hx : lookupNode g.all_level_nodes X = some xn) :
    (∀ uid ∈ xn.unlocks, stateOf g uid = some NodeState.locked →
        stateOf (set_current_player_node g X) uid = some NodeState.unlocked) ∧
    (∀ i, i ∉ xn.unlocks → i ≠ X → g.current_player_node_id ≠ some i →
        stateOf (set_current_player_node g X) i = stateOf g i) ∧
    (∀ g2, set_current_player_node_v2 g X = some g2 →
      (∀ uid ∈ xn.unlocks, stateOf g uid = some NodeState.locked →
          stateOf g2 uid = some NodeState.unlocked) ∧
      (∀ i, i ∉ xn.unlocks → i ≠ X → g.current_player_node_id ≠ some i →
          stateOf g2 i = stateOf g i)) := by
  refine ⟨fun uid hu hl => stateOf_set_current_unlocks hx hu hl,
          fun i h1 h2 h3 => stateOf_set_current_outside hx h1 h2 h3,
          fun g2 hm => ?_⟩
  obtain ⟨hn2, _⟩ := set_current_v2_eq hm
  constructor
  · intro uid hu hl
    unfold stateOf
    rw [hn2]
    exact stateOf_set_current_unlocks hx hu hl
  · intro i h1 h2 h3
    unfold stateOf
    rw [hn2]
    exact stateOf_set_current_outside hx h1 h2 h3

theorem claim3_witness :
    stateOf (set_current_player_node (setup_level_nodes_and_paths levels_data) "1-2")
      "1-A" = some NodeState.unlocked ∧
    stateOf (set_current_player_node (setup_level_nodes_and_paths levels_data) "1-2")
      "1-Castle" = stateOf (setup_level_nodes_and_paths levels_data) "1-Castle" :=
  ⟨(claim3_unlock_cascade_amended (setup_level_nodes_and_paths levels_data) "1-2"
      { level_id := "1-2", unlocks := ["1-A", "1-3"], node_state := NodeState.locked,
        is_current_game_node := false } (by decide)).1 "1-A" (by decide) (by decide),
   (claim3_unlock_cascade_amended (setup_level_nodes_and_paths levels_data) "1-2"
      { level_id := "1-2", unlocks := ["1-A", "1-3"], node_state := NodeState.locked,
        is_current_game_node := false } (by decide)).2.1 "1-Castle" (by decide)
      (by decide) (by decide)⟩

/-- C4: in either variant, when a previous current node `P` exists and
`moveTo(X)` is performed with `X ≠ P`, then if `P` was unlocked before
the move it is completed after, and if it was already completed it stays
completed. -/
theorem claim4_vacated_completion (g : GameState) (X p : String) (pn : LevelNode)
    (hc : g.current_player_node_id = some p) (hp : p ≠ "")
    (hlp : lookupNode g.all_level_nodes p = some pn) (hne : X ≠ p) :
    (pn.node_state = NodeState.unlocked →
      stateOf (set_current_player_node g X) p = some NodeState.completed) ∧
    (pn.node_state = NodeState.completed →
      stateOf (set_current_player_node g X) p = some NodeState.completed) ∧
    (∀ g2, set_current_player_node_v2 g X = some g2 →
      (pn.node_state = NodeState.unlocked → stateOf g2 p = some NodeState.completed) ∧
      (pn.node_state = NodeState.completed → stateOf g2 p = some NodeState.completed)) := by
  refine ⟨fun h => stateOf_set_current_prev hc hp hlp hne (Or.inl h),
          fun h => stateOf_set_current_prev hc hp hlp hne (Or.inr h),
          fun g2 hm => ?_⟩
  obtain ⟨hn2, _⟩ := set_current_v2_eq hm
  constructor
  · intro h
    unfold stateOf
    rw [hn2]
    exact stateOf_set_current_prev hc hp hlp hne (Or.inl h)
  · intro h
    unfold stateOf
    rw [hn2]
    exact stateOf_set_current_prev hc hp hlp hne (Or.inr h)

theorem claim4_witness :
    stateOf (set_current_player_node (setup_level_nodes_and_paths levels_data) "1-2")
      "1-1" = some NodeState.completed :=
  (claim4_vacated_completion (setup_level_nodes_and_paths levels_data) "1-2" "1-1"
    { level_id := "1-1", unlocks := ["1-2"], node_state := NodeState.unlocked,
      is_current_game_node := true }
    (by decide) (by decide) (by decide) (by decide)).1 rfl

/-- C5 counterexample: in the initialized shipped configuration, the
path `("1-1", "1-2")` has endpoint `1-1` as the current node yet its
thickness is 3, not the maximal 8 (the other endpoint is still locked),
so "thickness is maximal iff at least one endpoint is current" fails in
the only-if-given-current direction. -/
theorem claim5_counterexample :
    ((setup_level_nodes_and_paths levels_data).paths_entities.find?
        (fun p => p.key = ("1-1", "1-2"))).map (fun p => p.thickness) = some 3 ∧
    (lookupNode (setup_level_nodes_and_paths levels_data).all_level_nodes "1-1").map
        (fun n => n.is_current_game_node) = some true ∧
    (setup_level_nodes_and_paths levels_data).current_player_node_id = some "1-1" := by
  decide

/-- C5 (amended): after any visual sync of either variant, every path
whose endpoints resolve satisfies: it is invisible whenever both
endpoints are locked, and its thickness is the maximal 8 iff both
endpoints are non-locked and at least one endpoint is the current
node. -/
theorem claim5_path_visuals_amended (g : GameState) :
    (∀ p ∈ (update_all_visuals g).paths_entities, ∀ n1 n2,
      lookupNode (update_all_visuals g).all_level_nodes p.key.1 = some n1 →
      lookupNode (update_all_visuals g).all_level_nodes p.key.2 = some n2 →
      ((n1.node_state = NodeState.locked ∧ n2.node_state = NodeState.locked →
          p.visible = false) ∧
       (p.thickness = 8 ↔
          (n1.node_state ≠ NodeState.locked ∧ n2.node_state ≠ NodeState.locked ∧
           (n1.is_current_game_node = true ∨ n2.is_current_game_node = true))))) ∧
    (∀ g2, update_all_visuals_v2 g = some g2 → ∀ p ∈ g2.paths_entities, ∀ n1 n2,
      lookupNode g2.all_level_nodes p.key.1 = some n1 →
      lookupNode g2.all_level_nodes p.key.2 = some n2 →
      ((n1.node_state = NodeState.locked ∧ n2.node_state = NodeState.locked →
          p.visible = false) ∧
       (p.thickness = 8 ↔
          (n1.node_state ≠ NodeState.locked ∧ n2.node_state ≠ NodeState.locked ∧
           (n1.is_current_game_node = true ∨ n2.is_current_game_node = true))))) := by
  constructor
  · intro p hp n1 n2 h1 h2
    rw [update_all_visuals_nodes] at h1 h2
    rw [update_all_visuals_paths] at hp
    obtain ⟨q, _, he⟩ := List.mem_map.mp hp
    have hkey : p.key = q.key := by
      rw [← he]
      exact update_one_path_key _ q
    rw [hkey] at h1 h2
    have hpe : p = update_one_path_nodes q n1 n2 := by
      rw [← he, update_one_path_eq_nodes h1 h2]
    rw [hpe]
    exact update_one_path_nodes_spec q n1 n2
  · intro g2 hup p hp n1 n2 h1 h2
    obtain ⟨hnodes, _⟩ := update_all_visuals_v2_eq hup
    have hpaths := update_all_visuals_v2_paths hup
    obtain ⟨q, _, hq⟩ := update_path_visuals_v2_mem hpaths hp
    have hkey : p.key = q.key := update_one_path_v2_key hq
    rw [hnodes, update_all_visuals_nodes, hkey] at h1 h2
    have hpe : p = update_one_path_nodes_v2 q n1 n2 := by
      have := update_one_path_v2_eq_nodes h1 h2
      rw [hq] at this
      exact Option.some.inj this
    rw [hpe]
    exact update_one_path_nodes_v2_spec q n1 n2

theorem claim5_witness :
    ({ key := ("1-2", "1-A"), path_color := PathColor.black, thickness := 3,
       visible := false } : PathEntity) ∈
      (update_all_visuals (setup_level_nodes_and_paths levels_data)).paths_entities ∧
    ({ key := ("1-2", "1-A"), path_color := PathColor.black, thickness := 3,
       visible := false } : PathEntity).visible = false :=
  ⟨by decide,
   ((claim5_path_visuals_amended (setup_level_nodes_and_paths levels_data)).1
      { key := ("1-2", "1-A"), path_color := PathColor.black, thickness := 3,
        visible := false } (by decide)
      { level_id := "1-2", unlocks := ["1-A", "1-3"], node_state := NodeState.locked,
        is_current_game_node := false }
      { level_id := "1-A", unlocks := [], node_state := NodeState.locked,
        is_current_game_node := false }
      (by decide) (by decide)).1 ⟨rfl, rfl⟩⟩

/-- C6: in either variant, clicking a node whose state is locked is
rejected: the whole game state is returned unchanged with only a shake
feedback, and iterating the click any number of times leaves the state
unchanged, so no unlock side effect is ever produced. -/
theorem claim6_locked_click_rejected (g : GameState) (clicked : String)
    (n : LevelNode) (hl : lookupNode g.all_level_nodes clicked = some n)
    (hs : n.node_state = NodeState.locked) :
    handle_node_click g clicked = (g, some ClickEffect.shake) ∧
    handle_node_click_v2 g clicked = some (g, ClickEffect.shake) ∧
    ∀ k, (fun s => (handle_node_click s clicked).1)^[k] g = g := by
  have h1 : handle_node_click g clicked = (g, some ClickEffect.shake) := by
    rw [handle_node_click_eq_some hl, if_pos hs]
  refine ⟨h1, by rw [handle_node_click_v2_eq_some hl, if_pos hs], ?_⟩
  intro k
  induction k with
  | zero => rfl
  | succ k ih =>
      rw [Function.iterate_succ_apply, h1]
      exact ih

theorem claim6_witness :
    handle_node_click (setup_level_nodes_and_paths levels_data) "1-2"
      = (setup_level_nodes_and_paths levels_data, some ClickEffect.shake) ∧
    (fun s => (handle_node_click s "1-2").1)^[2]
        (setup_level_nodes_and_paths levels_data)
      = setup_level_nodes_and_paths levels_data :=
  ⟨(claim6_locked_click_rejected (setup_level_nodes_and_paths levels_data) "1-2"
      { level_id := "1-2", unlocks := ["1-A", "1-3"], node_state := NodeState.locked,
        is_current_game_node := false } (by decide) rfl).1,
   (claim6_locked_click_rejected (setup_level_nodes_and_paths levels_data) "1-2"
      { level_id := "1-2", unlocks := ["1-A", "1-3"], node_state := NodeState.locked,
        is_current_game_node := false } (by decide) rfl).2.2 2⟩

/-- C7 counterexample: in the scenario graph `A(unlocked) -> B(locked)
-> C(locked)` with current node `A` and `B ∈ A.unlocks`, a single click
on `B` leaves `B` locked and the current node `A` — not, as the claim
expects, `B` unlocked and current with `A` completed — because both
handlers reject clicks on locked nodes outright. -/
theorem claim7_counterexample :
    stateOf (handle_node_click (setup_level_nodes_and_paths cfgABC) "B").1 "B"
      = some NodeState.locked ∧
    (handle_node_click (setup_level_nodes_and_paths cfgABC) "B").1.current_player_node_id
      = some "A" ∧
    stateOf (handle_node_click (setup_level_nodes_and_paths cfgABC) "B").1 "A"
      = some NodeState.unlocked := by
  decide

/-- C7 (amended): in the graph `A(unlocked) -> B(locked) -> C(locked)`
with current node `A` and `B ∈ A.unlocks`, a single click on `B` is
rejected with shake feedback in both variants and changes nothing:
`A` stays unlocked and current, `B` and `C` stay locked. -/
theorem claim7_scenario_amended :
    handle_node_click (setup_level_nodes_and_paths cfgABC) "B"
      = (setup_level_nodes_and_paths cfgABC, some ClickEffect.shake) ∧
    (setup_level_nodes_and_paths_v2 cfgABC).bind (fun g => handle_node_click_v2 g "B")
      = (setup_level_nodes_and_paths_v2 cfgABC).map (fun g => (g, ClickEffect.shake)) ∧
    stateOf (setup_level_nodes_and_paths cfgABC) "A" = some NodeState.unlocked ∧
    stateOf (setup_level_nodes_and_paths cfgABC) "B" = some NodeState.locked ∧
    stateOf (setup_level_nodes_and_paths cfgABC) "C" = some NodeState.locked ∧
    (setup_level_nodes_and_paths cfgABC).current_player_node_id = some "A" := by
  decide

/-- C8: if no configured node has initial state unlocked, then after
graph construction in either variant the first configured node (whose id
is non-empty, as §6 requires) is unlocked and is the current node; and
when no node has any unlock edge — in particular for a one-node,
zero-edge configuration — zero paths are created. -/
theorem claim8_fallback_start (d : LevelConfig) (t : List LevelConfig)
    (hid : d.id ≠ "")
    (hno : ∀ e ∈ d :: t, e.initial_state ≠ NodeState.unlocked) :
    ((setup_level_nodes_and_paths (d :: t)).current_player_node_id = some d.id ∧
     stateOf (setup_level_nodes_and_paths (d :: t)) d.id = some NodeState.unlocked ∧
     (lookupNode (setup_level_nodes_and_paths (d :: t)).all_level_nodes d.id).map
        (fun n => n.is_current_game_node) = some true ∧
     ((∀ e ∈ d :: t, e.unlocks = []) →
        (setup_level_nodes_and_paths (d :: t)).paths_entities = [])) ∧
    (∀ g2, setup_level_nodes_and_paths_v2 (d :: t) = some g2 →
      g2.current_player_node_id = some d.id ∧
      stateOf g2 d.id = some NodeState.unlocked ∧
      ((∀ e ∈ d :: t, e.unlocks = []) → g2.paths_entities = [])) := by
  have hic : initial_current (d :: t) = none := initial_current_eq_none hno
  have hstate0 : stateIn (create_nodes (d :: t)) d.id = some d.initial_state := by
    unfold stateIn
    rw [lookupNode_create_nodes_head]
    rfl
  have hstate1 :
      stateIn (setStateById (create_nodes (d :: t)) d.id NodeState.unlocked) d.id
        = some NodeState.unlocked :=
    stateIn_setStateById_self _ hstate0
  constructor
  · unfold setup_level_nodes_and_paths
    rw [hic, setup_fallback_cons_none, if_pos ⟨hid, create_nodes_any_head d t⟩]
    refine ⟨rfl, ?_, ?_, ?_⟩
    · rw [stateOf_update_all_visuals]
      exact hstate1
    · rw [update_all_visuals_nodes, lookupNode_update_node_visuals,
        lookupNode_setStateById, lookupNode_create_nodes_head]
      simp [LevelNode.set_state]
    · intro hz
      rw [update_all_visuals_paths]
      rw [create_paths_eq_nil (create_nodes_unlocks_nil hz)]
      rfl
  · intro g2 h2
    unfold setup_level_nodes_and_paths_v2 at h2
    have hic2 : initial_current_v2 (d :: t) = none := initial_current_v2_eq_none hno
    rw [hic2] at h2
    simp only [setup_fallback_v2] at h2
    rw [if_pos (show truthyId none = false by decide),
      if_pos (create_nodes_any_head d t)] at h2
    simp only [Option.bind] at h2
    obtain ⟨hn2, hc2⟩ := update_all_visuals_v2_eq h2
    have hpaths2 := update_all_visuals_v2_paths h2
    refine ⟨hc2, ?_, ?_⟩
    · unfold stateOf
      rw [hn2, update_all_visuals_nodes, stateIn_update_node_visuals]
      exact hstate1
    · intro hz
      rw [create_paths_eq_nil (create_nodes_unlocks_nil hz)] at hpaths2
      exact (Option.some.inj hpaths2).symm

theorem claim8_witness :
    (setup_level_nodes_and_paths
        [{ id := "A", unlocks := [], initial_state := NodeState.locked }]
      ).current_player_node_id = some "A" ∧
    stateOf (setup_level_nodes_and_paths
        [{ id := "A", unlocks := [], initial_state := NodeState.locked }])
      "A" = some NodeState.unlocked ∧
    (setup_level_nodes_and_paths
        [{ id := "A", unlocks := [], initial_state := NodeState.locked }]
      ).paths_entities = [] := by
  obtain ⟨h1, h2, _, h4⟩ :=
    (claim8_fallback_start
      { id := "A", unlocks := [], initial_state := NodeState.locked } []
      (by decide) (by decide)).1
  exact ⟨h1, h2, h4 (by decide)⟩

/-- C9: the two source variants implement different movement policies:
from the same reachable (initial) state of a two-node configuration
whose nodes are both unlocked and joined by no path, clicking the
non-current node `B` moves in `src/1.py` (current becomes `B`) while
`3dworld5.13.25.py` rejects it with shake feedback and an unchanged
state — so the two click handlers are not equivalent. -/
theorem claim9_variants_differ :
    Reachable cfgAB (setup_level_nodes_and_paths cfgAB) ∧
    Reachable_v2 cfgAB (setup_level_nodes_and_paths cfgAB) ∧
    stateOf (setup_level_nodes_and_paths cfgAB) "B" = some NodeState.unlocked ∧
    (setup_level_nodes_and_paths cfgAB).current_player_node_id = some "A" ∧
    get_adjacent_nodes (setup_level_nodes_and_paths cfgAB).paths_entities
      (setup_level_nodes_and_paths cfgAB).current_player_node_id = [] ∧
    (handle_node_click (setup_level_nodes_and_paths cfgAB) "B").2
      = some ClickEffect.moved ∧
    (handle_node_click (setup_level_nodes_and_paths cfgAB) "B").1.current_player_node_id
      = some "B" ∧
    handle_node_click_v2 (setup_level_nodes_and_paths cfgAB) "B"
      = some (setup_level_nodes_and_paths cfgAB, ClickEffect.shake) :=
  ⟨Reachable.init, Reachable_v2.init _ (by decide), by decide⟩

/-- C10: in `src/1.py`, once a click passed the locked and current-node
checks, the final rejection branch is unreachable: its guard demands a
state that is neither unlocked nor completed, impossible for a
non-locked node, so every click on a non-locked, non-current node moves
— the `can_move` computation and the existence of a current node never
affect the outcome. -/
theorem claim10_rejection_unreachable (g : GameState) (clicked : String)
    (n : LevelNode) (hl : lookupNode g.all_level_nodes clicked = some n)
    (hnl : n.node_state ≠ NodeState.locked)
    (hnc : g.current_player_node_id ≠ some clicked) :
    handle_node_click g clicked
      = (set_current_player_node g clicked, some ClickEffect.moved) := by
  have hid : n.level_id = clicked := (lookupNode_eq_some hl).1
  have h2 : ¬g.current_player_node_id = some n.level_id := by
    rw [hid]
    exact hnc
  have h3 : ¬(compute_can_move g n = false ∧ n.node_state ≠ NodeState.unlocked ∧
      n.node_state ≠ NodeState.completed) := by
    intro hcon
    cases hstate : n.node_state with
    | locked => exact hnl hstate
    | unlocked => exact hcon.2.1 hstate
    | completed => exact hcon.2.2 hstate
  rw [handle_node_click_eq_some hl, if_neg hnl, if_neg h2, if_neg h3]

theorem claim10_witness :
    handle_node_click (setup_level_nodes_and_paths cfgAB) "B"
      = (set_current_player_node (setup_level_nodes_and_paths cfgAB) "B",
         some ClickEffect.moved) :=
  claim10_rejection_unreachable (setup_level_nodes_and_paths cfgAB) "B"
    { level_id := "B", unlocks := [], node_state := NodeState.unlocked,
      is_current_game_node := false }
    (by decide) (by decide) (by decide)

end Render3D
